import Mathlib

/-!
Verification of the MindSpace statistics core
(`utils/security.ts`, statistics section: `combineDailyEntries`,
`calculateMoodSleepCorrelation`, `calculateMoodWaterCorrelation`,
`calculateGratitudeImpact`, `analyzeMealImpact`).

Modelling conventions:
* JavaScript numbers are modelled as exact rationals (`ℚ`); the only
  irrational operation, `Math.sqrt`, appears solely in the final
  correlation value, which is modelled in `ℝ`.
* A JS value that may be `undefined` is an `Option`.
* A parameter that may be a non-array (the `Array.isArray` checks and the
  unguarded `foodEntries.forEach`) is an `Option (List _)`, `none` meaning
  "not an array".
* A JS plain object used as a string-keyed map is an insertion-ordered
  association list; `Object.entries` / `Object.values` enumerate canonical
  array-index keys (non-negative integers below 2^32 - 1, written without
  leading zeros) in ascending numeric order first, then all remaining keys
  in insertion order, per the ECMAScript [[OwnPropertyKeys]] order.
* `Array.prototype.sort` with a comparator is a stable sort, modelled by
  `List.insertionSort` (the unique stable sort for a total preorder).
* A thrown `TypeError` is modelled by `Except` with error `JsError.typeError`.
-/

namespace MindSpace

/-! ### Character-list string primitives

JS string comparison and the string methods used by the core are modelled
structurally on the character list, so that concrete runs reduce inside the
kernel. JS `<` on strings compares UTF-16 code units; for strings of BMP
characters (every string here is ASCII) this coincides with code-point
order on the character list. -/

/-- Lexicographic `<=` on character lists (the "may stay before" relation of
the JS comparator `a < b ? -1 : a > b ? 1 : 0`). -/
def clLe : List Char → List Char → Bool
  | [], _ => true
  | _ :: _, [] => false
  | a :: as, b :: bs => if a < b then true else if b < a then false else clLe as bs

/-- Strict lexicographic `<` on character lists (JS string `<`). -/
def clLt : List Char → List Char → Bool
  | [], [] => false
  | [], _ :: _ => true
  | _ :: _, [] => false
  | a :: as, b :: bs => if a < b then true else if b < a then false else clLt as bs

/-- `s.split(sep)` for a single-character separator, on the character list:
`""` splits to `[""]` and adjacent separators yield empty segments, as in
`String.prototype.split`. -/
def splitChar (sep : Char) : List Char → List (List Char)
  | [] => [[]]
  | c :: cs =>
    match splitChar sep cs with
    | [] => [[c]]
    | h :: t => if c = sep then [] :: h :: t else (c :: h) :: t

/-- `s.split(sep)` returning strings. -/
def jsSplit (s : String) (sep : Char) : List String :=
  (splitChar sep s.data).map String.mk

/-- `String.prototype.trim`, restricted to ASCII whitespace (all inputs
here are ASCII; JS also strips some exotic Unicode space characters). -/
def jsTrim (s : String) : String :=
  String.mk (((s.data.dropWhile Char.isWhitespace).reverse.dropWhile Char.isWhitespace).reverse)

/-- `String.prototype.toLowerCase`, restricted to ASCII letters. -/
def jsToLower (s : String) : String :=
  String.mk (s.data.map Char.toLower)

/-- The `moodValues` record (`great: 5, good: 4, neutral: 3, bad: 2, awful: 1`).
`MoodEntry.mood` is a plain `string` in the source, so indexing the record
with an unknown label yields `undefined`, modelled by `none`. -/
def moodValues (mood : String) : Option ℚ :=
  if mood = "great" then some 5
  else if mood = "good" then some 4
  else if mood = "neutral" then some 3
  else if mood = "bad" then some 2
  else if mood = "awful" then some 1
  else none

/-- The `CombinedEntry` interface: every field other than `date` is optional. -/
structure CombinedEntry where
  date : String
  mood : Option String := none
  moodValue : Option ℚ := none
  sleepHours : Option ℚ := none
  sleepQuality : Option ℚ := none
  waterCups : Option ℚ := none
  mealCount : Option ℕ := none
  hasGratitude : Option Bool := none
  gratitudeItemCount : Option ℕ := none
deriving DecidableEq, Repr

/-- A `MoodEntry` row; only the fields the statistics core reads
(`date`, `mood`) are modelled (`id`, `note`, `user_id` are never read). -/
structure MoodEntry where
  date : String
  mood : String
deriving DecidableEq, Repr

/-- A sleep entry row as read by the combiner (`date`, `hours_slept`,
`sleep_quality`). -/
structure SleepEntry where
  date : String
  hours_slept : ℚ
  sleep_quality : ℚ
deriving DecidableEq, Repr

/-- A water entry row as read by the combiner (`date`, `cups`). -/
structure WaterEntry where
  date : String
  cups : ℚ
deriving DecidableEq, Repr

/-- A food entry row as read by the combiner and the meal analyzer
(`date`, `meals`); `meals` may be `undefined`/`null` (`none`). -/
structure FoodEntry where
  date : String
  meals : Option String
deriving DecidableEq, Repr

/-- A gratitude entry row as read by the combiner
(`date`, `gratitude_items`); `gratitude_items` may be absent (`none`). -/
structure GratitudeEntry where
  date : String
  gratitude_items : Option String
deriving DecidableEq, Repr

/-- The `entriesByDate` object: a string-keyed, insertion-ordered map. -/
abbrev EMap : Type := List (String × CombinedEntry)

/-- Property lookup `entriesByDate[d]`. -/
def lookupE (m : EMap) (d : String) : Option CombinedEntry :=
  match m with
  | [] => none
  | (k, v) :: rest => if k = d then some v else lookupE rest d

/-- A fresh `{ date: d }` object. -/
def emptyEntry (d : String) : CombinedEntry := { date := d }

/-- The idiom `if (!entriesByDate[d]) entriesByDate[d] = { date: d };`
followed by field assignments `f` on `entriesByDate[d]`: update in place if
the key exists (keeping its position), otherwise append the key at the end
(JS insertion order). -/
def setAt (m : EMap) (d : String) (f : CombinedEntry → CombinedEntry) : EMap :=
  match m with
  | [] => [(d, f (emptyEntry d))]
  | (k, v) :: rest => if k = d then (k, f v) :: rest else (k, v) :: setAt rest d f

/-- One `list.forEach(entry => ...)` pass over an input list, updating the
entry for `dateOf e` with the field assignments `upd e`. -/
def processList {α : Type} (dateOf : α → String) (upd : α → CombinedEntry → CombinedEntry)
    (st : EMap) (l : List α) : EMap :=
  l.foldl (fun st e => setAt st (dateOf e) (upd e)) st

/-- The `if (Array.isArray(list))` guard: a non-array input contributes
nothing. -/
def processIfArray {α : Type} (dateOf : α → String) (upd : α → CombinedEntry → CombinedEntry)
    (st : EMap) (l : Option (List α)) : EMap :=
  match l with
  | some xs => processList dateOf upd st xs
  | none => st

/-- Field assignments of the mood pass: sets `mood` and `moodValue`
(`moodValues[entry.mood as Mood]`, `undefined` for unknown labels). -/
def moodUpd (e : MoodEntry) (c : CombinedEntry) : CombinedEntry :=
  { c with mood := some e.mood, moodValue := moodValues e.mood }

/-- Field assignments of the sleep pass. -/
def sleepUpd (e : SleepEntry) (c : CombinedEntry) : CombinedEntry :=
  { c with sleepHours := some e.hours_slept, sleepQuality := some e.sleep_quality }

/-- Field assignments of the water pass. -/
def waterUpd (e : WaterEntry) (c : CombinedEntry) : CombinedEntry :=
  { c with waterCups := some e.cups }

/-- `entry.meals ? entry.meals.split(",").length : 0` (both `undefined` and
the empty string are falsy). -/
def mealCountOf (meals : Option String) : ℕ :=
  match meals with
  | none => 0
  | some s => if s = "" then 0 else (jsSplit s ',').length

/-- Field assignments of the food pass. -/
def foodUpd (e : FoodEntry) (c : CombinedEntry) : CombinedEntry :=
  { c with mealCount := some (mealCountOf e.meals) }

/-- `entry.gratitude_items ? entry.gratitude_items.split("\n").filter(line =>
line.trim()).length : 0`: the number of newline-separated segments whose
trimmed form is non-empty (a non-empty string is truthy). -/
def gratitudeCountOf (items : Option String) : ℕ :=
  match items with
  | none => 0
  | some s =>
    if s = "" then 0
    else ((jsSplit s '\n').filter (fun line => jsTrim line ≠ "")).length

/-- Field assignments of the gratitude pass. -/
def gratUpd (e : GratitudeEntry) (c : CombinedEntry) : CombinedEntry :=
  { c with hasGratitude := some true,
           gratitudeItemCount := some (gratitudeCountOf e.gratitude_items) }

/-- Numeric value of a digit string. -/
def digitsToNat (l : List Char) : ℕ :=
  l.foldl (fun n c => 10 * n + (c.toNat - 48)) 0

/-- Whether a string is a canonical array-index property key: digits only,
no leading zero (except `"0"` itself), value below `2^32 - 1` — i.e.
`String(ToUint32(s)) === s`. -/
def isIndexKey (s : String) : Bool :=
  match s.data with
  | [] => false
  | c :: cs =>
    (c :: cs).all Char.isDigit && (decide (c ≠ '0') || decide (cs = [])) &&
      decide (digitsToNat (c :: cs) < 2 ^ 32 - 1)

/-- Numeric value of an index key, for the ascending enumeration order. -/
def keyNum (s : String) : ℕ := digitsToNat s.data

/-- ECMAScript own-property enumeration order for a string-keyed object:
canonical array-index keys in ascending numeric order first, then the
remaining keys in insertion order. -/
def objectEntriesStr (m : EMap) : EMap :=
  (m.filter (fun p => isIndexKey p.1)).insertionSort
      (fun p q => keyNum p.1 ≤ keyNum q.1)
    ++ m.filter (fun p => !isIndexKey p.1)

/-- The sort comparator `(a, b) => a.date < b.date ? -1 : a.date > b.date ?
1 : 0`: `a` may stay before `b` exactly when `a.date <= b.date`. -/
def dateLe (a b : CombinedEntry) : Prop := clLe a.date.data b.date.data = true

instance : DecidableRel dateLe :=
  fun a b => inferInstanceAs (Decidable (clLe a.date.data b.date.data = true))

/-- Strict date order, for stating the output ordering. -/
def dateLt (a b : CombinedEntry) : Prop := clLt a.date.data b.date.data = true

/-- The fully populated `entriesByDate` object after the five `forEach`
passes. -/
def combineMap (moodEntries : Option (List MoodEntry))
    (sleepEntries : Option (List SleepEntry)) (waterEntries : Option (List WaterEntry))
    (foodEntries : Option (List FoodEntry)) (gratitudeEntries : Option (List GratitudeEntry)) :
    EMap :=
  let m1 := processIfArray (fun e => e.date) moodUpd [] moodEntries
  let m2 := processIfArray (fun e => e.date) sleepUpd m1 sleepEntries
  let m3 := processIfArray (fun e => e.date) waterUpd m2 waterEntries
  let m4 := processIfArray (fun e => e.date) foodUpd m3 foodEntries
  processIfArray (fun e => e.date) gratUpd m4 gratitudeEntries

/-- `combineDailyEntries`: five passes over the (possibly non-array) input
lists into `entriesByDate`, then `Object.values(entriesByDate).sort(...)`.
The sort comparator has no ties (object keys are unique and each value's
`date` equals its key), so every conforming JS sort returns the one stable
sorted permutation, modelled by `List.insertionSort`. -/
def combineDailyEntries (moodEntries : Option (List MoodEntry))
    (sleepEntries : Option (List SleepEntry)) (waterEntries : Option (List WaterEntry))
    (foodEntries : Option (List FoodEntry)) (gratitudeEntries : Option (List GratitudeEntry)) :
    List CombinedEntry :=
  ((objectEntriesStr (combineMap moodEntries sleepEntries waterEntries foodEntries
    gratitudeEntries)).map Prod.snd).insertionSort dateLe

/-! ### Numeric helpers shared by the analysis functions -/

/-- `list.reduce((sum, v) => sum + v, 0) / list.length`. -/
def mean (l : List ℚ) : ℚ := l.sum / l.length

/-- The code's `moodVariance` / `sleepVariance` / `waterVariance`: the
un-normalized sum of squared deviations from the mean,
`values.reduce((sum, val) => sum + Math.pow(val - mean, 2), 0)`. -/
def ssDev (l : List ℚ) : ℚ := (l.map (fun v => (v - mean l) ^ 2)).sum

/-- The code's `covariance` loop:
`for i: covariance += (xs[i] - xMean) * (ys[i] - yMean)` (the two series
always have equal length, both being projections of the same entry list). -/
def covSum (xs ys : List ℚ) : ℚ :=
  (List.zipWith (fun a b => (a - mean xs) * (b - mean ys)) xs ys).sum

/-- `covariance / Math.sqrt(p)` followed by `if (isNaN(correlation))
correlation = 0`. The quotient is NaN exactly when it is `0 / 0` (here `p`,
a product of sums of squares, is never negative, and `p = 0` forces
`covariance = 0` by Cauchy-Schwarz, so the `±Infinity` branch of JS division
is unreachable; Lean's `x / 0 = 0` convention agrees with the NaN clamp on
that unreachable branch as well). -/
noncomputable def jsCorrelation (cov p : ℚ) : ℝ :=
  if cov = 0 ∧ p = 0 then 0 else (cov : ℝ) / Real.sqrt (p : ℝ)

/-- `Math.round`: round half toward positive infinity. -/
def jsRound (q : ℚ) : ℤ := ⌊q + 1 / 2⌋

/-- `parseInt(String(n))` for a finite number `n`: truncation toward zero.
(The exponent-notation corner cases of `String` on magnitudes outside
`[1e-6, 1e21)` are not modelled; all values here are bounded daily counts.) -/
def jsParseIntNum (q : ℚ) : ℤ := if 0 ≤ q then ⌊q⌋ else -⌊-q⌋

/-- `groups[k].push(v)` preceded by `if (!groups[k]) groups[k] = []`:
insertion-ordered map from key to the list of pushed values. -/
def pushGroup {κ : Type} [DecidableEq κ] (g : List (κ × List ℚ)) (k : κ) (v : ℚ) :
    List (κ × List ℚ) :=
  match g with
  | [] => [(k, [v])]
  | (k', vs) :: rest => if k' = k then (k', vs ++ [v]) :: rest else (k', vs) :: pushGroup rest k v

/-- Whether a number, used as an object key, prints as a canonical
array-index string: a non-negative integer below `2^32 - 1`. -/
def isIndexRat (q : ℚ) : Bool := q.den = 1 && decide (0 ≤ q.num) && decide (q.num < 2 ^ 32 - 1)

/-- `Object.entries` enumeration order for a number-keyed object:
array-index keys ascending, then the rest in insertion order. -/
def objectEntriesNum (g : List (ℚ × List ℚ)) : List (ℚ × List ℚ) :=
  (g.filter (fun p => isIndexRat p.1)).insertionSort (fun p q => p.1 ≤ q.1)
    ++ g.filter (fun p => !isIndexRat p.1)

/-! ### calculateMoodSleepCorrelation -/

/-- The filter `entry.moodValue !== undefined && entry.sleepHours !==
undefined`. -/
def sleepQualifies (e : CombinedEntry) : Bool := e.moodValue.isSome && e.sleepHours.isSome

/-- `entriesWithBoth` of the sleep correlation. -/
def entriesWithBothSleep (combinedEntries : List CombinedEntry) : List CombinedEntry :=
  combinedEntries.filter sleepQualifies

/-- `sleepGroups`: bucket the qualifying entries' mood values by
`Math.round(entry.sleepHours)` used as an object key. -/
def sleepGroups (entries : List CombinedEntry) : List (ℚ × List ℚ) :=
  entries.foldl
    (fun g e => pushGroup g ((jsRound (e.sleepHours.getD 0) : ℤ) : ℚ) (e.moodValue.getD 0)) []

/-- An element of `sleepMoodAverages`: `{ hours: parseInt(hours), avgMood,
count }`. -/
structure SleepAvg where
  hours : ℤ
  avgMood : ℚ
  count : ℕ
deriving DecidableEq, Repr

/-- `sleepMoodAverages`: one row per bucket of `Object.entries(sleepGroups)`
(in enumeration order), guarded by `moods.length > 0`. -/
def sleepMoodAverages (entries : List CombinedEntry) : List SleepAvg :=
  ((objectEntriesNum (sleepGroups entries)).filter (fun p => 0 < p.2.length)).map
    (fun p => ⟨jsParseIntNum p.1, mean p.2, p.2.length⟩)

/-- `list.reduce((best, current) => current.avgMood > best.avgMood ?
current : best)` guarded by `list.length > 0 ? ... : dflt`: keep the current
best unless a strictly greater average is found. -/
def pickBest {α : Type} (val : α → ℚ) (dflt : α) (l : List α) : α :=
  match l with
  | [] => dflt
  | x :: xs => xs.foldl (fun best current => if val current > val best then current else best) x

/-- `optimalSleep` (the default `{ hours: 0, avgMood: 0, count: 0 }` is the
empty-averages guard). -/
def optimalSleep (entries : List CombinedEntry) : SleepAvg :=
  pickBest (fun a => a.avgMood) ⟨0, 0, 0⟩ (sleepMoodAverages entries)

/-- `bestMoodEntry`: `reduce` with initial value `entriesWithBoth[0]`
(so the fold also revisits index 0); prefer a strictly higher `moodValue`,
or an equal `moodValue` with strictly more sleep. On an empty list the code
would produce `undefined` (`none`); the call site guards `length >= 5`. -/
def pickBestEntrySleep (l : List CombinedEntry) : Option CombinedEntry :=
  match l with
  | [] => none
  | x :: _ =>
    some (l.foldl
      (fun best current =>
        if current.moodValue.getD 0 > best.moodValue.getD 0 ∨
           (current.moodValue = best.moodValue ∧
             current.sleepHours.getD 0 > best.sleepHours.getD 0)
        then current else best) x)

/-- The `moodValues` series of the sleep correlation
(`entriesWithBoth.map(e => e.moodValue!)`). -/
def sleepMoodVals (entries : List CombinedEntry) : List ℚ :=
  entries.map (fun e => e.moodValue.getD 0)

/-- The `sleepValues` series (`entriesWithBoth.map(e => e.sleepHours!)`). -/
def sleepHourVals (entries : List CombinedEntry) : List ℚ :=
  entries.map (fun e => e.sleepHours.getD 0)

/-- An element of the sleep `dataPoints` projection. -/
structure SleepPoint where
  date : String
  mood : Option String
  moodValue : Option ℚ
  sleepHours : Option ℚ
deriving DecidableEq, Repr

/-- The result object of `calculateMoodSleepCorrelation`; the insufficient-
data return carries only the first four properties, so the last two are
`Option`s (`none` = property absent). -/
structure SleepCorrelationResult where
  hasEnoughData : Bool
  correlation : ℝ
  optimalSleepHours : ℤ
  bestMoodAfterSleep : Option CombinedEntry
  dataPoints : Option (List SleepPoint)
  averages : Option (List SleepAvg)

/-- `calculateMoodSleepCorrelation`. The redundant inner
`if (entriesWithBoth.length >= 5)` around the correlation computation is
always true on the non-early-return path and is folded away; `hasEnoughData`
keeps the code's `entriesWithBoth.length >= 5` expression. -/
noncomputable def calculateMoodSleepCorrelation (combinedEntries : List CombinedEntry) :
    SleepCorrelationResult :=
  let entriesWithBoth := entriesWithBothSleep combinedEntries
  if entriesWithBoth.length < 5 then
    { hasEnoughData := false, correlation := 0, optimalSleepHours := 0,
      bestMoodAfterSleep := none, dataPoints := none, averages := none }
  else
    let moodVals := sleepMoodVals entriesWithBoth
    let sleepVals := sleepHourVals entriesWithBoth
    { hasEnoughData := decide (5 ≤ entriesWithBoth.length),
      correlation := jsCorrelation (covSum moodVals sleepVals)
        (ssDev moodVals * ssDev sleepVals),
      optimalSleepHours := (optimalSleep entriesWithBoth).hours,
      bestMoodAfterSleep := pickBestEntrySleep entriesWithBoth,
      dataPoints := some (entriesWithBoth.map
        (fun e => ⟨e.date, e.mood, e.moodValue, e.sleepHours⟩)),
      averages := some (sleepMoodAverages entriesWithBoth) }

/-! ### calculateMoodWaterCorrelation -/

/-- The filter `entry.moodValue !== undefined && entry.waterCups !==
undefined`. -/
def waterQualifies (e : CombinedEntry) : Bool := e.moodValue.isSome && e.waterCups.isSome

/-- `entriesWithBoth` of the water correlation. -/
def entriesWithBothWater (combinedEntries : List CombinedEntry) : List CombinedEntry :=
  combinedEntries.filter waterQualifies

/-- `waterGroups`: bucket mood values by `entry.waterCups` used as an object
key (no rounding). -/
def waterGroups (entries : List CombinedEntry) : List (ℚ × List ℚ) :=
  entries.foldl (fun g e => pushGroup g (e.waterCups.getD 0) (e.moodValue.getD 0)) []

/-- An element of `waterMoodAverages`: `{ cups: parseInt(cups), avgMood,
count }`. -/
structure WaterAvg where
  cups : ℤ
  avgMood : ℚ
  count : ℕ
deriving DecidableEq, Repr

/-- `waterMoodAverages` in `Object.entries(waterGroups)` enumeration order. -/
def waterMoodAverages (entries : List CombinedEntry) : List WaterAvg :=
  ((objectEntriesNum (waterGroups entries)).filter (fun p => 0 < p.2.length)).map
    (fun p => ⟨jsParseIntNum p.1, mean p.2, p.2.length⟩)

/-- `optimalWater`. -/
def optimalWater (entries : List CombinedEntry) : WaterAvg :=
  pickBest (fun a => a.avgMood) ⟨0, 0, 0⟩ (waterMoodAverages entries)

/-- `bestMoodEntry` of the water correlation (ties on `moodValue` prefer
more cups). -/
def pickBestEntryWater (l : List CombinedEntry) : Option CombinedEntry :=
  match l with
  | [] => none
  | x :: _ =>
    some (l.foldl
      (fun best current =>
        if current.moodValue.getD 0 > best.moodValue.getD 0 ∨
           (current.moodValue = best.moodValue ∧
             current.waterCups.getD 0 > best.waterCups.getD 0)
        then current else best) x)

/-- The mood series of the water correlation. -/
def waterMoodVals (entries : List CombinedEntry) : List ℚ :=
  entries.map (fun e => e.moodValue.getD 0)

/-- The `waterValues` series. -/
def waterCupVals (entries : List CombinedEntry) : List ℚ :=
  entries.map (fun e => e.waterCups.getD 0)

/-- An element of the water `dataPoints` projection. -/
structure WaterPoint where
  date : String
  mood : Option String
  moodValue : Option ℚ
  waterCups : Option ℚ
deriving DecidableEq, Repr

/-- The result object of `calculateMoodWaterCorrelation`. -/
structure WaterCorrelationResult where
  hasEnoughData : Bool
  correlation : ℝ
  optimalWaterCups : ℤ
  bestMoodAfterWater : Option CombinedEntry
  dataPoints : Option (List WaterPoint)
  averages : Option (List WaterAvg)

/-- `calculateMoodWaterCorrelation` (same structure as the sleep variant). -/
noncomputable def calculateMoodWaterCorrelation (combinedEntries : List CombinedEntry) :
    WaterCorrelationResult :=
  let entriesWithBoth := entriesWithBothWater combinedEntries
  if entriesWithBoth.length < 5 then
    { hasEnoughData := false, correlation := 0, optimalWaterCups := 0,
      bestMoodAfterWater := none, dataPoints := none, averages := none }
  else
    let moodVals := waterMoodVals entriesWithBoth
    let waterVals := waterCupVals entriesWithBoth
    { hasEnoughData := decide (5 ≤ entriesWithBoth.length),
      correlation := jsCorrelation (covSum moodVals waterVals)
        (ssDev moodVals * ssDev waterVals),
      optimalWaterCups := (optimalWater entriesWithBoth).cups,
      bestMoodAfterWater := pickBestEntryWater entriesWithBoth,
      dataPoints := some (entriesWithBoth.map
        (fun e => ⟨e.date, e.mood, e.moodValue, e.waterCups⟩)),
      averages := some (waterMoodAverages entriesWithBoth) }

/-! ### calculateGratitudeImpact -/

/-- `entriesWithMood`: the filter `entry.moodValue !== undefined`. -/
def entriesWithMood (combinedEntries : List CombinedEntry) : List CombinedEntry :=
  combinedEntries.filter (fun e => e.moodValue.isSome)

/-- `gratitudeDays`: truthiness of `entry.hasGratitude` (`undefined` is
falsy). -/
def gratitudeDays (combinedEntries : List CombinedEntry) : List CombinedEntry :=
  (entriesWithMood combinedEntries).filter (fun e => e.hasGratitude.getD false)

/-- `nonGratitudeDays`: the `!entry.hasGratitude` filter. -/
def nonGratitudeDays (combinedEntries : List CombinedEntry) : List CombinedEntry :=
  (entriesWithMood combinedEntries).filter (fun e => !(e.hasGratitude.getD false))

/-- A `dataPoints.withGratitude` element. -/
structure GratitudePoint where
  date : String
  mood : Option String
  moodValue : Option ℚ
  itemCount : Option ℕ
deriving DecidableEq, Repr

/-- A `dataPoints.withoutGratitude` element (no `itemCount` property). -/
structure PlainPoint where
  date : String
  mood : Option String
  moodValue : Option ℚ
deriving DecidableEq, Repr

/-- The nested `dataPoints` object of the gratitude result. -/
structure GratitudePoints where
  withGratitude : List GratitudePoint
  withoutGratitude : List PlainPoint
deriving DecidableEq, Repr

/-- The result object of `calculateGratitudeImpact`; the insufficient-data
return carries only the first four properties. -/
structure GratitudeImpactResult where
  hasEnoughData : Bool
  impact : ℚ
  avgMoodWithGratitude : ℚ
  avgMoodWithoutGratitude : ℚ
  withGratitudeDays : Option ℕ
  withoutGratitudeDays : Option ℕ
  dataPoints : Option GratitudePoints
deriving DecidableEq, Repr

/-- `calculateGratitudeImpact`. -/
def calculateGratitudeImpact (combinedEntries : List CombinedEntry) : GratitudeImpactResult :=
  let withDays := gratitudeDays combinedEntries
  let withoutDays := nonGratitudeDays combinedEntries
  if (entriesWithMood combinedEntries).length < 7 ∨ withDays.length = 0 ∨
      withoutDays.length = 0 then
    { hasEnoughData := false, impact := 0, avgMoodWithGratitude := 0,
      avgMoodWithoutGratitude := 0, withGratitudeDays := none,
      withoutGratitudeDays := none, dataPoints := none }
  else
    let avgWith := mean (withDays.map (fun e => e.moodValue.getD 0))
    let avgWithout := mean (withoutDays.map (fun e => e.moodValue.getD 0))
    { hasEnoughData := true,
      impact := avgWith - avgWithout,
      avgMoodWithGratitude := avgWith,
      avgMoodWithoutGratitude := avgWithout,
      withGratitudeDays := some withDays.length,
      withoutGratitudeDays := some withoutDays.length,
      dataPoints := some
        { withGratitude := withDays.map
            (fun e => ⟨e.date, e.mood, e.moodValue, e.gratitudeItemCount⟩),
          withoutGratitude := withoutDays.map (fun e => ⟨e.date, e.mood, e.moodValue⟩) } }

/-! ### analyzeMealImpact -/

/-- The filter `entry.moodValue !== undefined && entry.mealCount !==
undefined && entry.mealCount > 0`. -/
def mealQualifies (e : CombinedEntry) : Bool :=
  e.moodValue.isSome && e.mealCount.isSome && decide (0 < e.mealCount.getD 0)

/-- `entriesWithBoth` of the meal analyzer. -/
def entriesWithBothMeal (combinedEntries : List CombinedEntry) : List CombinedEntry :=
  combinedEntries.filter mealQualifies

/-- A thrown `TypeError` (reading a property of `undefined`/`null`, or
calling `forEach` on a non-array). -/
inductive JsError
  | typeError
deriving DecidableEq, Repr

instance {ε α : Type} [DecidableEq ε] [DecidableEq α] : DecidableEq (Except ε α) :=
  fun a b =>
    match a, b with
    | .ok x, .ok y =>
      if h : x = y then .isTrue (by rw [h]) else .isFalse (by intro hc; cases hc; exact h rfl)
    | .ok _, .error _ => .isFalse (by intro hc; cases hc)
    | .error _, .ok _ => .isFalse (by intro hc; cases hc)
    | .error x, .error y =>
      if h : x = y then .isTrue (by rw [h]) else .isFalse (by intro hc; cases hc; exact h rfl)

/-- The accumulator of the food-entry pass: the `allMeals` insertion-ordered
set and the `mealToMoods` map. -/
structure MealAcc where
  allMeals : List String
  mealToMoods : List (String × List ℚ)
deriving DecidableEq, Repr

/-- `allMeals.add(meal)` (a JS `Set` keeps insertion order; `Set` uses
internal slots, so prototype properties play no role here). -/
def addMealName (names : List String) (meal : String) : List String :=
  if meal ∈ names then names else names ++ [meal]

/-- The enumerable and non-enumerable members a plain object literal `{}`
inherits from `Object.prototype`, i.e. the keys at which a property read on
`mealToMoods` finds a (truthy) inherited value even though no own key was
ever assigned. -/
def objectProtoKeys : List String :=
  ["constructor", "hasOwnProperty", "isPrototypeOf", "propertyIsEnumerable",
   "toLocaleString", "toString", "valueOf", "__proto__", "__defineGetter__",
   "__defineSetter__", "__lookupGetter__", "__lookupSetter__"]

/-- Whether a string names an inherited `Object.prototype` member. -/
def isProtoKey (s : String) : Bool := s ∈ objectProtoKeys

/-- The meal tokens of one `meals` string:
`meals.split(',').map(m => m.trim().toLowerCase())`. -/
def mealTokens (s : String) : List String :=
  (jsSplit s ',').map (fun m => jsToLower (jsTrim m))

/-- One iteration of `meals.forEach(meal => ...)`: `allMeals.add(meal)`,
then `if (!mealToMoods[meal]) mealToMoods[meal] = [];
mealToMoods[meal].push(moodValue)`. The truthiness test is a
prototype-chain read on a plain `{}`: an own key (always an array, truthy)
takes precedence, but when no own key exists and `meal` names an inherited
`Object.prototype` member the inherited value is truthy too, the array
init is skipped, and the `push` call on that non-array value throws a
`TypeError`. (In JS the `Set` add precedes the throw, but the exception
aborts the whole call, so the partially updated accumulator is never
observable and is discarded with the error here.) Own keys are only ever
created in the final branch, so an own key never shadows a prototype name. -/
def addMealMood (acc : MealAcc) (meal : String) (mood : ℚ) : Except JsError MealAcc :=
  if acc.mealToMoods.any (fun p => p.1 = meal) then
    .ok ⟨addMealName acc.allMeals meal, pushGroup acc.mealToMoods meal mood⟩
  else if isProtoKey meal then
    .error .typeError
  else
    .ok ⟨addMealName acc.allMeals meal, pushGroup acc.mealToMoods meal mood⟩

/-- One iteration of `foodEntries.forEach`: look up the first qualifying
combined entry with the same date; if found (and its `moodValue` passes the
re-check), split `foodEntry.meals` on commas — throwing if `meals` is
missing — trim and lower-case each segment, and record the entry's mood
under each segment (which throws on a segment naming an inherited
`Object.prototype` member, see `addMealMood`). -/
def processFood (entriesWithBoth : List CombinedEntry) (acc : MealAcc) (fe : FoodEntry) :
    Except JsError MealAcc :=
  match entriesWithBoth.find? (fun e => e.date = fe.date) with
  | none => .ok acc
  | some ce =>
    if ce.moodValue.isSome then
      match fe.meals with
      | none => .error .typeError
      | some s =>
        (mealTokens s).foldlM (fun acc meal => addMealMood acc meal (ce.moodValue.getD 0)) acc
    else .ok acc

/-- `lookup` in `mealToMoods` (`mealToMoods[meal] || []`). The own-key
lookup is exact here: by the time the pattern-building loop runs, the
`forEach` completed without throwing, so `allMeals` contains no inherited
`Object.prototype` name (such a token throws in `addMealMood` immediately
after being added) and every looked-up key is an own key. -/
def lookupMoods (g : List (String × List ℚ)) (meal : String) : List ℚ :=
  match g with
  | [] => []
  | (k, vs) :: rest => if k = meal then vs else lookupMoods rest meal

/-- A `mealPatterns` element. -/
structure MealPattern where
  meal : String
  occurrences : ℕ
  avgMood : ℚ
deriving DecidableEq, Repr

/-- The sort comparator `(a, b) => b.avgMood - a.avgMood`: `a` may stay
before `b` exactly when the comparator is `≤ 0`, i.e. `b.avgMood ≤
a.avgMood`. -/
def mealGe (a b : MealPattern) : Prop := b.avgMood ≤ a.avgMood

instance : DecidableRel mealGe := fun a b => inferInstanceAs (Decidable (b.avgMood ≤ a.avgMood))

instance : IsTotal MealPattern mealGe := ⟨fun a b => le_total b.avgMood a.avgMood⟩

instance : IsTrans MealPattern mealGe := ⟨fun _ _ _ h h' => le_trans h' h⟩

/-- The result object of `analyzeMealImpact`. -/
structure MealImpactResult where
  hasEnoughData : Bool
  mealPatterns : List MealPattern
deriving DecidableEq, Repr

/-- The `mealPatterns` construction: one row per `allMeals` element
(`mealToMoods[meal] || []`, its length as `occurrences`, its mean as
`avgMood`, `0` for an empty list). -/
def buildMealPatterns (acc : MealAcc) : List MealPattern :=
  acc.allMeals.map (fun meal =>
    let moods := lookupMoods acc.mealToMoods meal
    { meal := meal, occurrences := moods.length,
      avgMood := if 0 < moods.length then mean moods else 0 })

/-- `analyzeMealImpact`. `foodEntries` has no `Array.isArray` guard: when it
is not an array, `foodEntries.forEach` throws — but only after the
early return for fewer than 14 qualifying combined records. -/
def analyzeMealImpact (combinedEntries : List CombinedEntry)
    (foodEntries : Option (List FoodEntry)) : Except JsError MealImpactResult :=
  let entriesWithBoth := entriesWithBothMeal combinedEntries
  if entriesWithBoth.length < 14 then
    .ok { hasEnoughData := false, mealPatterns := [] }
  else
    match foodEntries with
    | none => .error .typeError
    | some fes =>
      match fes.foldlM (processFood entriesWithBoth) ⟨[], []⟩ with
      | .error e => .error e
      | .ok acc =>
        let sorted := (buildMealPatterns acc).insertionSort mealGe
        .ok { hasEnoughData := true,
              mealPatterns := sorted.filter (fun m => 3 ≤ m.occurrences) }

/-! ### Order facts about the character-list comparisons -/

theorem clLe_total (a b : List Char) : clLe a b = true ∨ clLe b a = true := by
  induction a generalizing b with
  | nil => left; rfl
  | cons x xs ih =>
    cases b with
    | nil => right; rfl
    | cons y ys =>
      by_cases h : x < y
      · left; simp [clLe, h]
      · by_cases h' : y < x
        · right; simp [clLe, h', asymm h']
        · rcases ih ys with hh | hh
          · left; simp [clLe, h, h', hh]
          · right; simp [clLe, h', h, hh]

theorem clLe_trans (a b c : List Char) (h₁ : clLe a b = true) (h₂ : clLe b c = true) :
    clLe a c = true := by
  induction a generalizing b c with
  | nil => rfl
  | cons x xs ih =>
    cases b with
    | nil => simp [clLe] at h₁
    | cons y ys =>
      cases c with
      | nil => simp [clLe] at h₂
      | cons z zs =>
        simp only [clLe] at h₁ h₂ ⊢
        by_cases hxy : x < y
        · by_cases hyz : y < z
          · simp [lt_trans hxy hyz]
          · by_cases hzy : z < y
            · simp [clLe, hzy, hyz] at h₂
            · have : y = z := le_antisymm (not_lt.mp hzy) (not_lt.mp hyz)
              simp [this ▸ hxy]
        · by_cases hyx : y < x
          · simp [hxy, hyx] at h₁
          · have hxy' : x = y := le_antisymm (not_lt.mp hyx) (not_lt.mp hxy)
            by_cases hyz : y < z
            · simp [hxy' ▸ hyz]
            · by_cases hzy : z < y
              · simp [hyz, hzy] at h₂
              · have hyz' : y = z := le_antisymm (not_lt.mp hzy) (not_lt.mp hyz)
                simp only [hxy, hyx, if_false, if_neg] at h₁
                simp only [hyz, hzy, if_false, if_neg] at h₂
                have hxz : x = z := hxy'.trans hyz'
                subst hxz
                simp [lt_irrefl, ih ys zs h₁ h₂]

theorem clLe_antisymm (a b : List Char) (h₁ : clLe a b = true) (h₂ : clLe b a = true) :
    a = b := by
  induction a generalizing b with
  | nil =>
    cases b with
    | nil => rfl
    | cons y ys => simp [clLe] at h₂
  | cons x xs ih =>
    cases b with
    | nil => simp [clLe] at h₁
    | cons y ys =>
      by_cases hxy : x < y
      · simp [clLe, asymm hxy, hxy] at h₂
      · by_cases hyx : y < x
        · simp [clLe, hxy, hyx] at h₁
        · have hx : x = y := le_antisymm (not_lt.mp hyx) (not_lt.mp hxy)
          simp only [clLe, hxy, hyx, if_false, if_neg] at h₁ h₂
          rw [hx, ih ys h₁ h₂]

theorem clLt_asymm (a b : List Char) (h : clLt a b = true) : ¬ clLt b a = true := by
  induction a generalizing b with
  | nil =>
    cases b with
    | nil => simp [clLt] at h
    | cons y ys => simp [clLt]
  | cons x xs ih =>
    cases b with
    | nil => simp [clLt] at h
    | cons y ys =>
      by_cases hxy : x < y
      · simp [clLt, asymm hxy, hxy]
      · by_cases hyx : y < x
        · simp [clLt, hxy, hyx] at h
        · simp only [clLt, hxy, hyx, if_false, if_neg] at h ⊢
          exact ih ys h

theorem clLt_of_clLe_of_ne (a b : List Char) (h : clLe a b = true) (hne : a ≠ b) :
    clLt a b = true := by
  induction a generalizing b with
  | nil =>
    cases b with
    | nil => exact absurd rfl hne
    | cons y ys => rfl
  | cons x xs ih =>
    cases b with
    | nil => simp [clLe] at h
    | cons y ys =>
      by_cases hxy : x < y
      · simp [clLt, hxy]
      · by_cases hyx : y < x
        · simp [clLe, hxy, hyx] at h
        · have hx : x = y := le_antisymm (not_lt.mp hyx) (not_lt.mp hxy)
          simp only [clLe, hxy, hyx, if_false, if_neg] at h
          simp only [clLt, hxy, hyx, if_false, if_neg]
          exact ih ys h (fun he => hne (by rw [hx, he]))

instance : IsTotal CombinedEntry dateLe := ⟨fun a b => clLe_total a.date.data b.date.data⟩

instance : IsTrans CombinedEntry dateLe :=
  ⟨fun a b c => clLe_trans a.date.data b.date.data c.date.data⟩

instance : IsAntisymm CombinedEntry dateLt :=
  ⟨fun a b h h' => absurd h' (clLt_asymm a.date.data b.date.data h)⟩

theorem dateLt_of_dateLe_of_ne {a b : CombinedEntry} (h : dateLe a b) (hne : a.date ≠ b.date) :
    dateLt a b :=
  clLt_of_clLe_of_ne a.date.data b.date.data h
    (fun he => hne (by cases ha : a.date; cases hb : b.date; simp_all))

/-! ### Lemmas about the `entriesByDate` association map -/

/-- The key list of the map. -/
def keysE (m : EMap) : List String := m.map Prod.fst

@[simp] theorem keysE_nil : keysE [] = [] := rfl

@[simp] theorem keysE_cons (p : String × CombinedEntry) (m : EMap) :
    keysE (p :: m) = p.1 :: keysE m := rfl

@[simp] theorem lookupE_cons (k : String) (v : CombinedEntry) (m : EMap) (d : String) :
    lookupE ((k, v) :: m) d = if k = d then some v else lookupE m d := rfl

theorem setAt_cons_self (k : String) (v : CombinedEntry) (m : EMap)
    (f : CombinedEntry → CombinedEntry) (h : k = d) :
    setAt ((k, v) :: m) d f = (k, f v) :: m := by
  simp [setAt, h]

theorem setAt_cons_ne (k : String) (v : CombinedEntry) (m : EMap)
    (f : CombinedEntry → CombinedEntry) (h : ¬ k = d) :
    setAt ((k, v) :: m) d f = (k, v) :: setAt m d f := by
  simp [setAt, h]

theorem lookupE_setAt_self (m : EMap) (d : String) (f : CombinedEntry → CombinedEntry) :
    lookupE (setAt m d f) d = some (f ((lookupE m d).getD (emptyEntry d))) := by
  induction m with
  | nil => simp [setAt, lookupE]
  | cons p rest ih =>
    obtain ⟨k, v⟩ := p
    by_cases h : k = d
    · rw [setAt_cons_self k v rest f h]
      simp [h]
    · rw [setAt_cons_ne k v rest f h]
      simp [h, ih]

theorem lookupE_setAt_ne (m : EMap) (d d' : String) (f : CombinedEntry → CombinedEntry)
    (h : d' ≠ d) : lookupE (setAt m d f) d' = lookupE m d' := by
  have hdd : ¬ d = d' := fun he => h he.symm
  induction m with
  | nil => simp [setAt, lookupE, hdd]
  | cons p rest ih =>
    obtain ⟨k, v⟩ := p
    by_cases hk : k = d
    · rw [setAt_cons_self k v rest f hk]
      simp [hk, hdd]
    · rw [setAt_cons_ne k v rest f hk]
      simp [ih]

theorem mem_keysE_setAt (m : EMap) (d a : String) (f : CombinedEntry → CombinedEntry) :
    a ∈ keysE (setAt m d f) ↔ a ∈ keysE m ∨ a = d := by
  induction m with
  | nil => simp [setAt, keysE]
  | cons p rest ih =>
    obtain ⟨k, v⟩ := p
    by_cases h : k = d
    · rw [setAt_cons_self k v rest f h]
      subst h
      simp only [keysE_cons, List.mem_cons]
      tauto
    · rw [setAt_cons_ne k v rest f h]
      simp only [keysE_cons, List.mem_cons, ih]
      tauto

theorem nodup_keysE_setAt (m : EMap) (d : String) (f : CombinedEntry → CombinedEntry)
    (h : (keysE m).Nodup) : (keysE (setAt m d f)).Nodup := by
  induction m with
  | nil => simp [setAt, keysE]
  | cons p rest ih =>
    obtain ⟨k, v⟩ := p
    simp only [keysE_cons, List.nodup_cons] at h
    by_cases hk : k = d
    · rw [setAt_cons_self k v rest f hk]
      simpa [List.nodup_cons] using h
    · rw [setAt_cons_ne k v rest f hk]
      simp only [keysE_cons, List.nodup_cons]
      refine ⟨fun hc => ?_, ih h.2⟩
      rw [mem_keysE_setAt] at hc
      rcases hc with hc | hc
      · exact h.1 hc
      · exact hk hc

/-- Every value stored in the map carries its own key as its `date`. -/
def datesOk (m : EMap) : Prop := ∀ p ∈ m, (p : String × CombinedEntry).2.date = p.1

theorem datesOk_setAt (m : EMap) (d : String) (f : CombinedEntry → CombinedEntry)
    (hf : ∀ c, (f c).date = c.date) (h : datesOk m) : datesOk (setAt m d f) := by
  induction m with
  | nil =>
    intro p hp
    simp only [setAt, List.mem_singleton] at hp
    subst hp
    simp [hf, emptyEntry]
  | cons q rest ih =>
    obtain ⟨k, v⟩ := q
    by_cases hk : k = d
    · intro p hp
      simp only [setAt, if_pos hk, List.mem_cons] at hp
      rcases hp with hp | hp
      · subst hp; simpa [hf] using h (k, v) (by simp)
      · exact h p (List.mem_cons_of_mem _ hp)
    · intro p hp
      simp only [setAt, if_neg hk, List.mem_cons] at hp
      rcases hp with hp | hp
      · subst hp; exact h (k, v) (by simp)
      · exact ih (fun q hq => h q (List.mem_cons_of_mem _ hq)) p hp

theorem lookupE_processList {α : Type} (dateOf : α → String)
    (upd : α → CombinedEntry → CombinedEntry) (st : EMap) (l : List α) (d : String) :
    lookupE (processList dateOf upd st l) d =
      (l.filter (fun e => decide (dateOf e = d))).foldl
        (fun v e => some (upd e (v.getD (emptyEntry d)))) (lookupE st d) := by
  induction l generalizing st with
  | nil => rfl
  | cons e t ih =>
    show lookupE (processList dateOf upd (setAt st (dateOf e) (upd e)) t) d = _
    rw [ih]
    by_cases h : dateOf e = d
    · subst h
      rw [List.filter_cons_of_pos (by simp), List.foldl_cons, lookupE_setAt_self]
    · rw [List.filter_cons_of_neg (by simp [h]), lookupE_setAt_ne _ _ _ _ (fun he => h he.symm)]

theorem mem_keysE_processList {α : Type} (dateOf : α → String)
    (upd : α → CombinedEntry → CombinedEntry) (st : EMap) (l : List α) (a : String) :
    a ∈ keysE (processList dateOf upd st l) ↔ a ∈ keysE st ∨ a ∈ l.map dateOf := by
  induction l generalizing st with
  | nil => simp [processList]
  | cons e t ih =>
    show a ∈ keysE (processList dateOf upd (setAt st (dateOf e) (upd e)) t) ↔ _
    rw [ih, mem_keysE_setAt]
    simp only [List.map_cons, List.mem_cons]
    tauto

theorem nodup_keysE_processList {α : Type} (dateOf : α → String)
    (upd : α → CombinedEntry → CombinedEntry) (st : EMap) (l : List α)
    (h : (keysE st).Nodup) : (keysE (processList dateOf upd st l)).Nodup := by
  induction l generalizing st with
  | nil => exact h
  | cons e t ih => exact ih _ (nodup_keysE_setAt _ _ _ h)

theorem datesOk_processList {α : Type} (dateOf : α → String)
    (upd : α → CombinedEntry → CombinedEntry)
    (hupd : ∀ e c, (upd e c).date = c.date) (st : EMap) (l : List α)
    (h : datesOk st) : datesOk (processList dateOf upd st l) := by
  induction l generalizing st with
  | nil => exact h
  | cons e t ih => exact ih _ (datesOk_setAt _ _ _ (hupd e) h)

theorem mem_iff_lookupE (m : EMap) (hm : (keysE m).Nodup) (d : String) (c : CombinedEntry) :
    (d, c) ∈ m ↔ lookupE m d = some c := by
  induction m with
  | nil => simp [lookupE]
  | cons p rest ih =>
    obtain ⟨k, v⟩ := p
    simp only [keysE_cons, List.nodup_cons] at hm
    rw [lookupE_cons]
    by_cases h : k = d
    · subst h
      rw [if_pos rfl]
      simp only [List.mem_cons, Prod.mk.injEq, Option.some.injEq]
      constructor
      · rintro (⟨-, hvc⟩ | hmem)
        · exact hvc.symm
        · exact absurd (List.mem_map_of_mem Prod.fst hmem) hm.1
      · rintro rfl
        exact Or.inl ⟨trivial, rfl⟩
    · rw [if_neg h, ← ih hm.2]
      simp only [List.mem_cons, Prod.mk.injEq]
      constructor
      · rintro (⟨hdk, -⟩ | hmem)
        · exact absurd hdk.symm h
        · exact hmem
      · exact Or.inr

/-! ### Permutation invariance of the combiner -/

theorem length_filter_le_one_of_nodup_map {α : Type} (l : List α) (f : α → String)
    (hnd : (l.map f).Nodup) (d : String) :
    (l.filter (fun e => decide (f e = d))).length ≤ 1 := by
  induction l with
  | nil => simp
  | cons e t ih =>
    simp only [List.map_cons, List.nodup_cons] at hnd
    by_cases h : f e = d
    · rw [List.filter_cons_of_pos (by simp [h])]
      have ht : t.filter (fun e => decide (f e = d)) = [] := by
        rw [List.filter_eq_nil_iff]
        intro x hx hfx
        exact hnd.1 (h ▸ (by simpa using hfx) ▸ List.mem_map_of_mem f hx)
      simp [ht]
    · rw [List.filter_cons_of_neg (by simp [h])]
      exact ih hnd.2

theorem filter_eq_of_perm_of_le_one {α : Type} (l₁ l₂ : List α) (p : α → Bool)
    (hp : l₁.Perm l₂) (h : (l₁.filter p).length ≤ 1) : l₁.filter p = l₂.filter p := by
  have hperm := hp.filter p
  match hf : l₁.filter p with
  | [] =>
    rw [hf] at hperm
    exact (hperm.symm.eq_nil).symm
  | [e] =>
    rw [hf] at hperm
    exact (List.perm_singleton.mp hperm.symm).symm
  | e₁ :: e₂ :: t =>
    rw [hf] at h
    simp at h

theorem lookupE_processList_of_unique {α : Type} (dateOf : α → String)
    (upd : α → CombinedEntry → CombinedEntry) (st : EMap) (l : List α) (d : String)
    (hu : (l.filter (fun e => decide (dateOf e = d))).length ≤ 1) :
    lookupE (processList dateOf upd st l) d =
      match l.filter (fun e => decide (dateOf e = d)) with
      | [] => lookupE st d
      | e :: _ => some (upd e ((lookupE st d).getD (emptyEntry d))) := by
  rw [lookupE_processList]
  match hf : l.filter (fun e => decide (dateOf e = d)) with
  | [] => rfl
  | [e] => rfl
  | e₁ :: e₂ :: t =>
    rw [hf] at hu
    simp at hu

theorem lookupE_processList_congr {α : Type} (dateOf : α → String)
    (upd : α → CombinedEntry → CombinedEntry) (st₁ st₂ : EMap) (l₁ l₂ : List α)
    (hperm : l₁.Perm l₂) (hnd : (l₁.map dateOf).Nodup)
    (hlook : ∀ d, lookupE st₁ d = lookupE st₂ d) (d : String) :
    lookupE (processList dateOf upd st₁ l₁) d = lookupE (processList dateOf upd st₂ l₂) d := by
  have h₁ := length_filter_le_one_of_nodup_map l₁ dateOf hnd d
  have h₂ : (l₂.filter (fun e => decide (dateOf e = d))).length ≤ 1 := by
    rw [← filter_eq_of_perm_of_le_one l₁ l₂ _ hperm h₁]
    exact h₁
  rw [lookupE_processList_of_unique _ _ _ _ _ h₁, lookupE_processList_of_unique _ _ _ _ _ h₂,
    ← filter_eq_of_perm_of_le_one l₁ l₂ _ hperm h₁, hlook d]

theorem objectEntriesStr_perm (m : EMap) : (objectEntriesStr m).Perm m := by
  unfold objectEntriesStr
  exact ((List.perm_insertionSort _ _).append_right _).trans (List.filter_append_perm _ m)

theorem nodup_keysE_processIfArray {α : Type} (dateOf : α → String)
    (upd : α → CombinedEntry → CombinedEntry) (st : EMap) (l : Option (List α))
    (h : (keysE st).Nodup) : (keysE (processIfArray dateOf upd st l)).Nodup := by
  cases l with
  | none => exact h
  | some xs => exact nodup_keysE_processList dateOf upd st xs h

theorem datesOk_processIfArray {α : Type} (dateOf : α → String)
    (upd : α → CombinedEntry → CombinedEntry)
    (hupd : ∀ e c, (upd e c).date = c.date) (st : EMap) (l : Option (List α))
    (h : datesOk st) : datesOk (processIfArray dateOf upd st l) := by
  cases l with
  | none => exact h
  | some xs => exact datesOk_processList dateOf upd hupd st xs h

theorem moodUpd_date (e : MoodEntry) (c : CombinedEntry) : (moodUpd e c).date = c.date := rfl

theorem sleepUpd_date (e : SleepEntry) (c : CombinedEntry) : (sleepUpd e c).date = c.date := rfl

theorem waterUpd_date (e : WaterEntry) (c : CombinedEntry) : (waterUpd e c).date = c.date := rfl

theorem foodUpd_date (e : FoodEntry) (c : CombinedEntry) : (foodUpd e c).date = c.date := rfl

theorem gratUpd_date (e : GratitudeEntry) (c : CombinedEntry) : (gratUpd e c).date = c.date := rfl

theorem nodup_keysE_combineMap (mo : Option (List MoodEntry)) (sl : Option (List SleepEntry))
    (wa : Option (List WaterEntry)) (fo : Option (List FoodEntry))
    (gr : Option (List GratitudeEntry)) : (keysE (combineMap mo sl wa fo gr)).Nodup := by
  unfold combineMap
  exact nodup_keysE_processIfArray _ _ _ _ (nodup_keysE_processIfArray _ _ _ _
    (nodup_keysE_processIfArray _ _ _ _ (nodup_keysE_processIfArray _ _ _ _
      (nodup_keysE_processIfArray _ _ _ _ List.nodup_nil))))

theorem datesOk_combineMap (mo : Option (List MoodEntry)) (sl : Option (List SleepEntry))
    (wa : Option (List WaterEntry)) (fo : Option (List FoodEntry))
    (gr : Option (List GratitudeEntry)) : datesOk (combineMap mo sl wa fo gr) := by
  unfold combineMap
  exact datesOk_processIfArray _ _ gratUpd_date _ _ (datesOk_processIfArray _ _ foodUpd_date _ _
    (datesOk_processIfArray _ _ waterUpd_date _ _ (datesOk_processIfArray _ _ sleepUpd_date _ _
      (datesOk_processIfArray _ _ moodUpd_date _ _ (fun p hp => absurd hp (List.not_mem_nil p))))))

theorem lookupE_combineMap_congr
    (mo₁ mo₂ : List MoodEntry) (sl₁ sl₂ : List SleepEntry) (wa₁ wa₂ : List WaterEntry)
    (fo₁ fo₂ : List FoodEntry) (gr₁ gr₂ : List GratitudeEntry)
    (hmo : mo₁.Perm mo₂) (hsl : sl₁.Perm sl₂) (hwa : wa₁.Perm wa₂) (hfo : fo₁.Perm fo₂)
    (hgr : gr₁.Perm gr₂)
    (hmod : (mo₁.map (fun e => e.date)).Nodup) (hsld : (sl₁.map (fun e => e.date)).Nodup)
    (hwad : (wa₁.map (fun e => e.date)).Nodup) (hfod : (fo₁.map (fun e => e.date)).Nodup)
    (hgrd : (gr₁.map (fun e => e.date)).Nodup) (d : String) :
    lookupE (combineMap (some mo₁) (some sl₁) (some wa₁) (some fo₁) (some gr₁)) d =
      lookupE (combineMap (some mo₂) (some sl₂) (some wa₂) (some fo₂) (some gr₂)) d := by
  refine lookupE_processList_congr _ gratUpd _ _ gr₁ gr₂ hgr hgrd (fun d => ?_) d
  refine lookupE_processList_congr _ foodUpd _ _ fo₁ fo₂ hfo hfod (fun d => ?_) d
  refine lookupE_processList_congr _ waterUpd _ _ wa₁ wa₂ hwa hwad (fun d => ?_) d
  refine lookupE_processList_congr _ sleepUpd _ _ sl₁ sl₂ hsl hsld (fun d => ?_) d
  exact lookupE_processList_congr _ moodUpd _ _ mo₁ mo₂ hmo hmod (fun _ => rfl) d

theorem mem_keysE_combineMap_congr
    (mo₁ mo₂ : List MoodEntry) (sl₁ sl₂ : List SleepEntry) (wa₁ wa₂ : List WaterEntry)
    (fo₁ fo₂ : List FoodEntry) (gr₁ gr₂ : List GratitudeEntry)
    (hmo : mo₁.Perm mo₂) (hsl : sl₁.Perm sl₂) (hwa : wa₁.Perm wa₂) (hfo : fo₁.Perm fo₂)
    (hgr : gr₁.Perm gr₂) (d : String) :
    (d ∈ keysE (combineMap (some mo₁) (some sl₁) (some wa₁) (some fo₁) (some gr₁)) ↔
      d ∈ keysE (combineMap (some mo₂) (some sl₂) (some wa₂) (some fo₂) (some gr₂))) := by
  have h : ∀ (mo : List MoodEntry) (sl : List SleepEntry) (wa : List WaterEntry)
      (fo : List FoodEntry) (gr : List GratitudeEntry),
      d ∈ keysE (combineMap (some mo) (some sl) (some wa) (some fo) (some gr)) ↔
        ((((d ∈ keysE ([] : EMap) ∨ d ∈ mo.map (fun e => e.date)) ∨
          d ∈ sl.map (fun e => e.date)) ∨ d ∈ wa.map (fun e => e.date)) ∨
          d ∈ fo.map (fun e => e.date)) ∨ d ∈ gr.map (fun e => e.date) := by
    intro mo sl wa fo gr
    show d ∈ keysE (processList _ gratUpd (processList _ foodUpd (processList _ waterUpd
      (processList _ sleepUpd (processList _ moodUpd [] mo) sl) wa) fo) gr) ↔ _
    simp only [mem_keysE_processList]
  rw [h, h, (hmo.map (fun e => e.date)).mem_iff, (hsl.map (fun e => e.date)).mem_iff,
    (hwa.map (fun e => e.date)).mem_iff, (hfo.map (fun e => e.date)).mem_iff,
    (hgr.map (fun e => e.date)).mem_iff]

theorem combineMap_perm_congr
    (mo₁ mo₂ : List MoodEntry) (sl₁ sl₂ : List SleepEntry) (wa₁ wa₂ : List WaterEntry)
    (fo₁ fo₂ : List FoodEntry) (gr₁ gr₂ : List GratitudeEntry)
    (hmo : mo₁.Perm mo₂) (hsl : sl₁.Perm sl₂) (hwa : wa₁.Perm wa₂) (hfo : fo₁.Perm fo₂)
    (hgr : gr₁.Perm gr₂)
    (hmod : (mo₁.map (fun e => e.date)).Nodup) (hsld : (sl₁.map (fun e => e.date)).Nodup)
    (hwad : (wa₁.map (fun e => e.date)).Nodup) (hfod : (fo₁.map (fun e => e.date)).Nodup)
    (hgrd : (gr₁.map (fun e => e.date)).Nodup) :
    (combineMap (some mo₁) (some sl₁) (some wa₁) (some fo₁) (some gr₁)).Perm
      (combineMap (some mo₂) (some sl₂) (some wa₂) (some fo₂) (some gr₂)) := by
  have hk₁ := nodup_keysE_combineMap (some mo₁) (some sl₁) (some wa₁) (some fo₁) (some gr₁)
  have hk₂ := nodup_keysE_combineMap (some mo₂) (some sl₂) (some wa₂) (some fo₂) (some gr₂)
  rw [List.perm_ext_iff_of_nodup (hk₁.of_map _) (hk₂.of_map _)]
  rintro ⟨d, c⟩
  rw [mem_iff_lookupE _ hk₁, mem_iff_lookupE _ hk₂,
    lookupE_combineMap_congr mo₁ mo₂ sl₁ sl₂ wa₁ wa₂ fo₁ fo₂ gr₁ gr₂
      hmo hsl hwa hfo hgr hmod hsld hwad hfod hgrd d]

/-- The dates of the sorted output are a permutation of the map's keys. -/
theorem sortedOutput_dates_perm (M : EMap) :
    ((((objectEntriesStr M).map Prod.snd).insertionSort dateLe).map
      (fun e => e.date)).Perm (M.map (fun p => p.2.date)) := by
  have h1 : (((objectEntriesStr M).map Prod.snd).insertionSort dateLe).Perm
      (M.map Prod.snd) :=
    (List.perm_insertionSort dateLe _).trans ((objectEntriesStr_perm M).map _)
  have h2 := h1.map (fun e : CombinedEntry => e.date)
  rw [List.map_map] at h2
  exact h2

/-- For a map with distinct keys whose values carry their keys as dates, the
sorted output is strictly ascending by date. -/
theorem sortedOutput_pairwise (M : EMap) (hk : (keysE M).Nodup) (hd : datesOk M) :
    List.Pairwise dateLt (((objectEntriesStr M).map Prod.snd).insertionSort dateLe) := by
  have hle : List.Pairwise dateLe (((objectEntriesStr M).map Prod.snd).insertionSort dateLe) :=
    List.sorted_insertionSort dateLe _
  have hdates : M.map (fun p => p.2.date) = keysE M :=
    List.map_congr_left (fun p hp => hd p hp)
  have hnd : ((((objectEntriesStr M).map Prod.snd).insertionSort dateLe).map
      (fun e => e.date)).Nodup := by
    rw [(sortedOutput_dates_perm M).nodup_iff, hdates]
    exact hk
  have hne : List.Pairwise (fun a b : CombinedEntry => a.date ≠ b.date)
      (((objectEntriesStr M).map Prod.snd).insertionSort dateLe) :=
    List.pairwise_map.mp hnd
  exact (hle.and hne).imp (fun h => dateLt_of_dateLe_of_ne h.1 h.2)

/-- The final sorted output of the combiner, as a function of the map. -/
theorem sortedOutput_eq_of_perm (M₁ M₂ : EMap) (hp : M₁.Perm M₂)
    (hk₁ : (keysE M₁).Nodup) (hd₁ : datesOk M₁) :
    ((objectEntriesStr M₁).map Prod.snd).insertionSort dateLe =
      ((objectEntriesStr M₂).map Prod.snd).insertionSort dateLe := by
  have hk₂ : (keysE M₂).Nodup := ((hp.map Prod.fst).nodup_iff).mp hk₁
  have hd₂ : datesOk M₂ := fun p hmem => hd₁ p (hp.symm.subset hmem)
  have hperm : (((objectEntriesStr M₁).map Prod.snd).insertionSort dateLe).Perm
      (((objectEntriesStr M₂).map Prod.snd).insertionSort dateLe) :=
    ((List.perm_insertionSort dateLe _).trans
      ((((objectEntriesStr_perm M₁).map Prod.snd).trans (hp.map Prod.snd)).trans
        ((objectEntriesStr_perm M₂).map Prod.snd).symm)).trans
      (List.perm_insertionSort dateLe _).symm
  exact List.eq_of_perm_of_sorted hperm (sortedOutput_pairwise M₁ hk₁ hd₁)
    (sortedOutput_pairwise M₂ hk₂ hd₂)

/-! ### Sums, Cauchy-Schwarz, and the correlation value -/

theorem list_sum_getD (l : List ℚ) :
    l.sum = ∑ i in Finset.range l.length, l.getD i 0 := by
  induction l with
  | nil => simp
  | cons a t ih =>
    rw [List.sum_cons, ih, List.length_cons, Finset.sum_range_succ']
    simp [add_comm]

theorem zip_mul_sum (xs ys : List ℚ) (h : xs.length = ys.length) :
    (List.zipWith (· * ·) xs ys).sum =
      ∑ i in Finset.range xs.length, xs.getD i 0 * ys.getD i 0 := by
  induction xs generalizing ys with
  | nil => simp
  | cons x xt ih =>
    cases ys with
    | nil => simp at h
    | cons y yt =>
      have h' : xt.length = yt.length := by simpa using h
      rw [List.zipWith_cons_cons, List.sum_cons, ih yt h', List.length_cons,
        Finset.sum_range_succ']
      simp [add_comm]

theorem map_sq_sum (l : List ℚ) :
    (l.map (fun v => v ^ 2)).sum = ∑ i in Finset.range l.length, l.getD i 0 ^ 2 := by
  induction l with
  | nil => simp
  | cons a t ih =>
    rw [List.map_cons, List.sum_cons, ih, List.length_cons, Finset.sum_range_succ']
    simp [add_comm]

theorem list_cauchy_schwarz (xs ys : List ℚ) (h : xs.length = ys.length) :
    (List.zipWith (· * ·) xs ys).sum ^ 2 ≤
      (xs.map (fun v => v ^ 2)).sum * (ys.map (fun v => v ^ 2)).sum := by
  rw [zip_mul_sum xs ys h, map_sq_sum, map_sq_sum, ← h]
  exact Finset.sum_mul_sq_le_sq_mul_sq _ _ _

theorem covSum_eq (xs ys : List ℚ) :
    covSum xs ys = (List.zipWith (· * ·) (xs.map (fun v => v - mean xs))
      (ys.map (fun v => v - mean ys))).sum := by
  unfold covSum
  rw [List.zipWith_map]

theorem ssDev_eq (l : List ℚ) :
    ssDev l = ((l.map (fun v => v - mean l)).map (fun v => v ^ 2)).sum := by
  unfold ssDev
  rw [List.map_map]
  rfl

theorem cov_sq_le (xs ys : List ℚ) (h : xs.length = ys.length) :
    covSum xs ys ^ 2 ≤ ssDev xs * ssDev ys := by
  rw [covSum_eq, ssDev_eq, ssDev_eq]
  exact list_cauchy_schwarz _ _ (by simp [h])

theorem ssDev_nonneg (l : List ℚ) : 0 ≤ ssDev l := by
  unfold ssDev
  refine List.sum_nonneg ?_
  intro x hx
  obtain ⟨v, -, rfl⟩ := List.mem_map.mp hx
  exact sq_nonneg _

theorem covSum_eq_zero_of_mul_eq_zero (xs ys : List ℚ) (h : xs.length = ys.length)
    (hp : ssDev xs * ssDev ys = 0) : covSum xs ys = 0 := by
  have h1 := cov_sq_le xs ys h
  rw [hp] at h1
  exact sq_eq_zero_iff.mp (le_antisymm h1 (sq_nonneg _))

theorem list_sum_const (l : List ℚ) (a : ℚ) (h : ∀ x ∈ l, x = a) :
    l.sum = l.length * a := by
  induction l with
  | nil => simp
  | cons x t ih =>
    rw [List.sum_cons, ih (fun y hy => h y (List.mem_cons_of_mem x hy)),
      h x (List.mem_cons_self x t), List.length_cons]
    push_cast
    ring

theorem mean_const (l : List ℚ) (a : ℚ) (hne : l ≠ []) (h : ∀ x ∈ l, x = a) :
    mean l = a := by
  have hn : (l.length : ℚ) ≠ 0 := by
    simp only [ne_eq, Nat.cast_eq_zero]
    exact Nat.pos_iff_ne_zero.mp (List.length_pos.mpr hne)
  unfold mean
  rw [list_sum_const l a h]
  field_simp

theorem ssDev_eq_zero_of_const (l : List ℚ) (h : ∀ x ∈ l, ∀ y ∈ l, x = y) :
    ssDev l = 0 := by
  cases l with
  | nil => simp [ssDev]
  | cons a t =>
    have hall : ∀ x ∈ a :: t, x = a := fun x hx => h x hx a (List.mem_cons_self a t)
    have hmean : mean (a :: t) = a := mean_const _ a (by simp) hall
    unfold ssDev
    refine List.sum_eq_zero ?_
    intro x hx
    obtain ⟨v, hv, rfl⟩ := List.mem_map.mp hx
    rw [hall v hv, hmean]
    ring

/-- Modelled from the spec (section 4.2): "population Pearson's r computed
directly from the qualifying records' paired series:
`r = covariance(mood, factor) / sqrt(variance(mood) * variance(factor))`",
with population covariance and variances (normalized by the count) and the
zero-variance case "mapped to 0". This is the refinement target that the
code's un-normalized computation is compared against. -/
noncomputable def pearsonSpec (xs ys : List ℚ) : ℝ :=
  let n : ℚ := xs.length
  let covp := covSum xs ys / n
  let varx := ssDev xs / n
  let vary := ssDev ys / n
  if varx = 0 ∨ vary = 0 then 0
  else (covp : ℝ) / Real.sqrt ((varx : ℝ) * (vary : ℝ))

theorem jsCorrelation_eq_pearsonSpec (xs ys : List ℚ) (hl : xs.length = ys.length)
    (hne : xs ≠ []) :
    jsCorrelation (covSum xs ys) (ssDev xs * ssDev ys) = pearsonSpec xs ys := by
  have hn : (xs.length : ℚ) ≠ 0 := by
    simp only [ne_eq, Nat.cast_eq_zero]
    exact Nat.pos_iff_ne_zero.mp (List.length_pos.mpr hne)
  have hnR : ((xs.length : ℚ) : ℝ) ≠ 0 := by exact_mod_cast hn
  have hnR' : (0 : ℝ) < ((xs.length : ℚ) : ℝ) := by
    rcases lt_or_eq_of_le (by positivity : (0 : ℝ) ≤ ((xs.length : ℚ) : ℝ)) with h | h
    · exact h
    · exact absurd h.symm hnR
  unfold jsCorrelation pearsonSpec
  by_cases hx : ssDev xs = 0
  · rw [if_pos ⟨covSum_eq_zero_of_mul_eq_zero xs ys hl (by rw [hx, zero_mul]),
      by rw [hx, zero_mul]⟩, if_pos (Or.inl (by rw [hx, zero_div]))]
  · by_cases hy : ssDev ys = 0
    · rw [if_pos ⟨covSum_eq_zero_of_mul_eq_zero xs ys hl (by rw [hy, mul_zero]),
        by rw [hy, mul_zero]⟩, if_pos (Or.inr (by rw [hy, zero_div]))]
    · have hp : ssDev xs * ssDev ys ≠ 0 := mul_ne_zero hx hy
      rw [if_neg (by rintro ⟨-, h⟩; exact hp h),
        if_neg (by rintro (h | h) <;> exact absurd (by field_simp at h; exact h) (by assumption))]
      have hps : (0 : ℝ) < ((ssDev xs : ℚ) : ℝ) * ((ssDev ys : ℚ) : ℝ) := by
        have h1 := mul_nonneg (ssDev_nonneg xs) (ssDev_nonneg ys)
        rcases lt_or_eq_of_le h1 with h | h
        · exact_mod_cast h
        · exact absurd h.symm hp
      have hsq : Real.sqrt (((ssDev xs / (xs.length : ℚ) : ℚ) : ℝ) *
            ((ssDev ys / (xs.length : ℚ) : ℚ) : ℝ)) =
          Real.sqrt (((ssDev xs : ℚ) : ℝ) * ((ssDev ys : ℚ) : ℝ)) / ((xs.length : ℚ) : ℝ) := by
        have harg : ((ssDev xs / (xs.length : ℚ) : ℚ) : ℝ) *
              ((ssDev ys / (xs.length : ℚ) : ℚ) : ℝ) =
            (((ssDev xs : ℚ) : ℝ) * ((ssDev ys : ℚ) : ℝ)) / ((xs.length : ℚ) : ℝ) ^ 2 := by
          push_cast
          ring
        rw [harg, Real.sqrt_div' _ (sq_nonneg _), Real.sqrt_sq hnR'.le]
      rw [hsq]
      have hsqrt_ne : Real.sqrt (((ssDev xs : ℚ) : ℝ) * ((ssDev ys : ℚ) : ℝ)) ≠ 0 :=
        (Real.sqrt_pos.mpr hps).ne'
      have hnR2 : ((xs.length : ℕ) : ℝ) ≠ 0 := by exact_mod_cast hn
      push_cast
      field_simp

theorem jsCorrelation_bounds (xs ys : List ℚ) (hl : xs.length = ys.length)
    (hx : ssDev xs ≠ 0) (hy : ssDev ys ≠ 0) :
    -1 ≤ jsCorrelation (covSum xs ys) (ssDev xs * ssDev ys) ∧
      jsCorrelation (covSum xs ys) (ssDev xs * ssDev ys) ≤ 1 := by
  have hp : ssDev xs * ssDev ys ≠ 0 := mul_ne_zero hx hy
  have hppos : (0 : ℝ) < ((ssDev xs * ssDev ys : ℚ) : ℝ) := by
    have h1 := mul_nonneg (ssDev_nonneg xs) (ssDev_nonneg ys)
    rcases lt_or_eq_of_le h1 with h | h
    · exact_mod_cast h
    · exact absurd h.symm hp
  have hsqrt_pos : 0 < Real.sqrt ((ssDev xs * ssDev ys : ℚ)) := Real.sqrt_pos.mpr hppos
  have hcov : |((covSum xs ys : ℚ) : ℝ)| ≤ Real.sqrt ((ssDev xs * ssDev ys : ℚ)) := by
    have hsq : (((covSum xs ys : ℚ) : ℝ)) ^ 2 ≤ ((ssDev xs * ssDev ys : ℚ) : ℝ) := by
      exact_mod_cast cov_sq_le xs ys hl
    have h1 : Real.sqrt ((((covSum xs ys : ℚ) : ℝ)) ^ 2) ≤
        Real.sqrt ((ssDev xs * ssDev ys : ℚ)) := Real.sqrt_le_sqrt hsq
    rwa [Real.sqrt_sq_eq_abs] at h1
  have habs : |jsCorrelation (covSum xs ys) (ssDev xs * ssDev ys)| ≤ 1 := by
    unfold jsCorrelation
    rw [if_neg (by rintro ⟨-, h⟩; exact hp h), abs_div,
      abs_of_pos hsqrt_pos]
    exact div_le_one_of_le₀ hcov hsqrt_pos.le
  exact abs_le.mp habs

theorem jsCorrelation_zero_of_const_left (xs ys : List ℚ) (hl : xs.length = ys.length)
    (h : ∀ x ∈ xs, ∀ y ∈ xs, x = y) :
    jsCorrelation (covSum xs ys) (ssDev xs * ssDev ys) = 0 := by
  have hx : ssDev xs = 0 := ssDev_eq_zero_of_const xs h
  have hp : ssDev xs * ssDev ys = 0 := by rw [hx, zero_mul]
  unfold jsCorrelation
  rw [if_pos ⟨covSum_eq_zero_of_mul_eq_zero xs ys hl hp, hp⟩]

theorem jsCorrelation_zero_of_const_right (xs ys : List ℚ) (hl : xs.length = ys.length)
    (h : ∀ x ∈ ys, ∀ y ∈ ys, x = y) :
    jsCorrelation (covSum xs ys) (ssDev xs * ssDev ys) = 0 := by
  have hy : ssDev ys = 0 := ssDev_eq_zero_of_const ys h
  have hp : ssDev xs * ssDev ys = 0 := by rw [hy, mul_zero]
  unfold jsCorrelation
  rw [if_pos ⟨covSum_eq_zero_of_mul_eq_zero xs ys hl hp, hp⟩]

/-! ### The first-maximum characterization of the optimal-bucket reduce -/

theorem foldl_pickBest_spec {α : Type} (val : α → ℚ) (b : α) (xs : List α) :
    (xs.foldl (fun best current => if val current > val best then current else best) b = b ∧
      ∀ a ∈ xs, val a ≤ val b) ∨
    (∃ l₁ l₂, xs = l₁ ++
        (xs.foldl (fun best current => if val current > val best then current else best) b) :: l₂ ∧
      val b < val (xs.foldl (fun best current => if val current > val best then current else best) b) ∧
      (∀ a ∈ l₁, val a <
        val (xs.foldl (fun best current => if val current > val best then current else best) b)) ∧
      (∀ a ∈ l₂, val a ≤
        val (xs.foldl (fun best current => if val current > val best then current else best) b))) := by
  induction xs generalizing b with
  | nil => exact Or.inl ⟨rfl, by simp⟩
  | cons c t ih =>
    by_cases hc : val c > val b
    · rw [List.foldl_cons, if_pos hc]
      rcases ih c with ⟨heq, hall⟩ | ⟨l₁, l₂, hdec, hgt, hbefore, hafter⟩
      · refine Or.inr ⟨[], t, ?_, ?_, by simp, ?_⟩
        · rw [heq, List.nil_append]
        · rw [heq]; exact hc
        · intro a ha
          rw [heq]
          exact hall a ha
      · refine Or.inr ⟨c :: l₁, l₂, ?_, lt_trans hc hgt, ?_, hafter⟩
        · rw [List.cons_append, ← hdec]
        · intro a ha
          rcases List.mem_cons.mp ha with rfl | ha
          · exact hgt
          · exact hbefore a ha
    · rw [List.foldl_cons, if_neg hc]
      rcases ih b with ⟨heq, hall⟩ | ⟨l₁, l₂, hdec, hgt, hbefore, hafter⟩
      · refine Or.inl ⟨heq, ?_⟩
        intro a ha
        rcases List.mem_cons.mp ha with rfl | ha
        · exact not_lt.mp hc
        · exact hall a ha
      · refine Or.inr ⟨c :: l₁, l₂, ?_, hgt, ?_, hafter⟩
        · rw [List.cons_append, ← hdec]
        · intro a ha
          rcases List.mem_cons.mp ha with rfl | ha
          · exact lt_of_le_of_lt (not_lt.mp hc) hgt
          · exact hbefore a ha

theorem pickBest_spec {α : Type} (val : α → ℚ) (dflt : α) (l : List α) (hne : l ≠ []) :
    ∃ l₁ l₂, l = l₁ ++ pickBest val dflt l :: l₂ ∧
      (∀ a ∈ l₁, val a < val (pickBest val dflt l)) ∧
      (∀ a ∈ l₂, val a ≤ val (pickBest val dflt l)) := by
  match l with
  | [] => exact absurd rfl hne
  | x :: xs =>
    have hpb : pickBest val dflt (x :: xs) =
        xs.foldl (fun best current => if val current > val best then current else best) x := rfl
    rw [hpb]
    rcases foldl_pickBest_spec val x xs with ⟨heq, hall⟩ | ⟨l₁, l₂, hdec, hgt, hbefore, hafter⟩
    · exact ⟨[], xs, by rw [heq, List.nil_append], by simp,
        fun a ha => by rw [heq]; exact hall a ha⟩
    · refine ⟨x :: l₁, l₂, by rw [List.cons_append, ← hdec], ?_, hafter⟩
      intro a ha
      rcases List.mem_cons.mp ha with rfl | ha
      · exact hgt
      · exact hbefore a ha

/-! ### Non-emptiness of the bucket structures -/

theorem pushGroup_ne_nil {κ : Type} [DecidableEq κ] (g : List (κ × List ℚ)) (k : κ) (v : ℚ) :
    pushGroup g k v ≠ [] := by
  cases g with
  | nil => simp [pushGroup]
  | cons p rest =>
    obtain ⟨k', vs⟩ := p
    by_cases h : k' = k <;> simp [pushGroup, h]

theorem pushGroup_values_ne_nil {κ : Type} [DecidableEq κ] (g : List (κ × List ℚ)) (k : κ)
    (v : ℚ) (h : ∀ p ∈ g, p.2 ≠ []) : ∀ p ∈ pushGroup g k v, p.2 ≠ [] := by
  induction g with
  | nil =>
    intro p hp
    simp only [pushGroup, List.mem_singleton] at hp
    subst hp
    simp
  | cons q rest ih =>
    obtain ⟨k', vs⟩ := q
    intro p hp
    by_cases hk : k' = k
    · simp only [pushGroup, if_pos hk, List.mem_cons] at hp
      rcases hp with hp | hp
      · subst hp; simp
      · exact h p (List.mem_cons_of_mem _ hp)
    · simp only [pushGroup, if_neg hk, List.mem_cons] at hp
      rcases hp with hp | hp
      · subst hp; exact h (k', vs) (List.mem_cons_self _ _)
      · exact ih (fun q hq => h q (List.mem_cons_of_mem _ hq)) p hp

theorem foldl_pushGroup_values_ne_nil {β : Type} (key : β → ℚ) (mv : β → ℚ) (l : List β)
    (g₀ : List (ℚ × List ℚ)) (h₀ : ∀ p ∈ g₀, p.2 ≠ []) :
    ∀ p ∈ l.foldl (fun g e => pushGroup g (key e) (mv e)) g₀, p.2 ≠ [] := by
  induction l generalizing g₀ with
  | nil => exact h₀
  | cons e t ih => exact ih _ (pushGroup_values_ne_nil g₀ (key e) (mv e) h₀)

theorem foldl_pushGroup_ne_nil_of_ne_nil {β : Type} (key : β → ℚ) (mv : β → ℚ) (l : List β)
    (g₀ : List (ℚ × List ℚ)) (h₀ : g₀ ≠ []) :
    l.foldl (fun g e => pushGroup g (key e) (mv e)) g₀ ≠ [] := by
  induction l generalizing g₀ with
  | nil => exact h₀
  | cons e t ih => exact ih _ (pushGroup_ne_nil g₀ (key e) (mv e))

theorem foldl_pushGroup_ne_nil {β : Type} (key : β → ℚ) (mv : β → ℚ) (l : List β)
    (hl : l ≠ []) : l.foldl (fun g e => pushGroup g (key e) (mv e)) [] ≠ [] := by
  cases l with
  | nil => exact absurd rfl hl
  | cons e t => exact foldl_pushGroup_ne_nil_of_ne_nil key mv t _ (pushGroup_ne_nil [] _ _)

theorem objectEntriesNum_perm (g : List (ℚ × List ℚ)) : (objectEntriesNum g).Perm g := by
  unfold objectEntriesNum
  exact ((List.perm_insertionSort _ _).append_right _).trans (List.filter_append_perm _ g)

theorem sleepMoodAverages_ne_nil (entries : List CombinedEntry) (h : entries ≠ []) :
    sleepMoodAverages entries ≠ [] := by
  unfold sleepMoodAverages
  have hgrp : sleepGroups entries ≠ [] := foldl_pushGroup_ne_nil _ _ entries h
  have hvals : ∀ p ∈ sleepGroups entries, p.2 ≠ [] :=
    foldl_pushGroup_values_ne_nil _ _ entries [] (by simp)
  have hobj : objectEntriesNum (sleepGroups entries) ≠ [] := by
    intro hc
    have h2 := (objectEntriesNum_perm (sleepGroups entries)).symm
    rw [hc] at h2
    exact hgrp h2.eq_nil
  have hfil : (objectEntriesNum (sleepGroups entries)).filter (fun p => 0 < p.2.length) =
      objectEntriesNum (sleepGroups entries) := by
    rw [List.filter_eq_self]
    intro p hp
    have := hvals p ((objectEntriesNum_perm (sleepGroups entries)).subset hp)
    simpa [List.length_pos] using this
  rw [hfil]
  simpa using hobj

theorem waterMoodAverages_ne_nil (entries : List CombinedEntry) (h : entries ≠ []) :
    waterMoodAverages entries ≠ [] := by
  unfold waterMoodAverages
  have hgrp : waterGroups entries ≠ [] := foldl_pushGroup_ne_nil _ _ entries h
  have hvals : ∀ p ∈ waterGroups entries, p.2 ≠ [] :=
    foldl_pushGroup_values_ne_nil _ _ entries [] (by simp)
  have hobj : objectEntriesNum (waterGroups entries) ≠ [] := by
    intro hc
    have h2 := (objectEntriesNum_perm (waterGroups entries)).symm
    rw [hc] at h2
    exact hgrp h2.eq_nil
  have hfil : (objectEntriesNum (waterGroups entries)).filter (fun p => 0 < p.2.length) =
      objectEntriesNum (waterGroups entries) := by
    rw [List.filter_eq_self]
    intro p hp
    have := hvals p ((objectEntriesNum_perm (waterGroups entries)).subset hp)
    simpa [List.length_pos] using this
  rw [hfil]
  simpa using hobj

/-! ### Branch characterizations of the analysis functions -/

theorem calculateMoodSleepCorrelation_of_lt (ce : List CombinedEntry)
    (h : (entriesWithBothSleep ce).length < 5) :
    calculateMoodSleepCorrelation ce =
      ⟨false, 0, 0, none, none, none⟩ := by
  unfold calculateMoodSleepCorrelation
  rw [if_pos h]

theorem calculateMoodSleepCorrelation_of_ge (ce : List CombinedEntry)
    (h : 5 ≤ (entriesWithBothSleep ce).length) :
    calculateMoodSleepCorrelation ce =
      { hasEnoughData := decide (5 ≤ (entriesWithBothSleep ce).length),
        correlation := jsCorrelation
          (covSum (sleepMoodVals (entriesWithBothSleep ce))
            (sleepHourVals (entriesWithBothSleep ce)))
          (ssDev (sleepMoodVals (entriesWithBothSleep ce)) *
            ssDev (sleepHourVals (entriesWithBothSleep ce))),
        optimalSleepHours := (optimalSleep (entriesWithBothSleep ce)).hours,
        bestMoodAfterSleep := pickBestEntrySleep (entriesWithBothSleep ce),
        dataPoints := some ((entriesWithBothSleep ce).map
          (fun e => ⟨e.date, e.mood, e.moodValue, e.sleepHours⟩)),
        averages := some (sleepMoodAverages (entriesWithBothSleep ce)) } := by
  unfold calculateMoodSleepCorrelation
  rw [if_neg (not_lt.mpr h)]

theorem calculateMoodWaterCorrelation_of_lt (ce : List CombinedEntry)
    (h : (entriesWithBothWater ce).length < 5) :
    calculateMoodWaterCorrelation ce =
      ⟨false, 0, 0, none, none, none⟩ := by
  unfold calculateMoodWaterCorrelation
  rw [if_pos h]

theorem calculateMoodWaterCorrelation_of_ge (ce : List CombinedEntry)
    (h : 5 ≤ (entriesWithBothWater ce).length) :
    calculateMoodWaterCorrelation ce =
      { hasEnoughData := decide (5 ≤ (entriesWithBothWater ce).length),
        correlation := jsCorrelation
          (covSum (waterMoodVals (entriesWithBothWater ce))
            (waterCupVals (entriesWithBothWater ce)))
          (ssDev (waterMoodVals (entriesWithBothWater ce)) *
            ssDev (waterCupVals (entriesWithBothWater ce))),
        optimalWaterCups := (optimalWater (entriesWithBothWater ce)).cups,
        bestMoodAfterWater := pickBestEntryWater (entriesWithBothWater ce),
        dataPoints := some ((entriesWithBothWater ce).map
          (fun e => ⟨e.date, e.mood, e.moodValue, e.waterCups⟩)),
        averages := some (waterMoodAverages (entriesWithBothWater ce)) } := by
  unfold calculateMoodWaterCorrelation
  rw [if_neg (not_lt.mpr h)]

theorem calculateGratitudeImpact_of_insufficient (ce : List CombinedEntry)
    (h : (entriesWithMood ce).length < 7 ∨ (gratitudeDays ce).length = 0 ∨
      (nonGratitudeDays ce).length = 0) :
    calculateGratitudeImpact ce = ⟨false, 0, 0, 0, none, none, none⟩ := by
  unfold calculateGratitudeImpact
  rw [if_pos h]

theorem calculateGratitudeImpact_of_sufficient (ce : List CombinedEntry)
    (h : ¬ ((entriesWithMood ce).length < 7 ∨ (gratitudeDays ce).length = 0 ∨
      (nonGratitudeDays ce).length = 0)) :
    calculateGratitudeImpact ce =
      { hasEnoughData := true,
        impact := mean ((gratitudeDays ce).map (fun e => e.moodValue.getD 0)) -
          mean ((nonGratitudeDays ce).map (fun e => e.moodValue.getD 0)),
        avgMoodWithGratitude := mean ((gratitudeDays ce).map (fun e => e.moodValue.getD 0)),
        avgMoodWithoutGratitude := mean ((nonGratitudeDays ce).map (fun e => e.moodValue.getD 0)),
        withGratitudeDays := some (gratitudeDays ce).length,
        withoutGratitudeDays := some (nonGratitudeDays ce).length,
        dataPoints := some
          { withGratitude := (gratitudeDays ce).map
              (fun e => ⟨e.date, e.mood, e.moodValue, e.gratitudeItemCount⟩),
            withoutGratitude := (nonGratitudeDays ce).map
              (fun e => ⟨e.date, e.mood, e.moodValue⟩) } } := by
  unfold calculateGratitudeImpact
  rw [if_neg h]

theorem addMealMood_ok_of_not_proto (acc : MealAcc) (meal : String) (mood : ℚ)
    (h : isProtoKey meal = false) :
    addMealMood acc meal mood =
      Except.ok ⟨addMealName acc.allMeals meal, pushGroup acc.mealToMoods meal mood⟩ := by
  unfold addMealMood
  by_cases hown : acc.mealToMoods.any (fun p => decide (p.1 = meal)) = true
  · rw [if_pos hown]
  · rw [if_neg hown, if_neg (by simp [h])]

theorem foldlM_addMealMood_ok (mood : ℚ) (tokens : List String) (acc : MealAcc)
    (h : ∀ m ∈ tokens, isProtoKey m = false) :
    ∃ acc', tokens.foldlM (fun a m => addMealMood a m mood) acc = Except.ok acc' := by
  induction tokens generalizing acc with
  | nil => exact ⟨acc, rfl⟩
  | cons m t ih =>
    obtain ⟨acc', hacc'⟩ := ih ⟨addMealName acc.allMeals m, pushGroup acc.mealToMoods m mood⟩
      (fun x hx => h x (List.mem_cons_of_mem _ hx))
    refine ⟨acc', ?_⟩
    rw [List.foldlM_cons, addMealMood_ok_of_not_proto acc m mood (h m (List.mem_cons_self m t))]
    exact hacc'

theorem foldlM_processFood_ok (ew : List CombinedEntry) (fes : List FoodEntry)
    (acc : MealAcc) (h : ∀ fe ∈ fes, fe.meals.isSome = true)
    (hproto : ∀ fe ∈ fes, ∀ m ∈ mealTokens (fe.meals.getD ""), isProtoKey m = false) :
    ∃ acc', fes.foldlM (processFood ew) acc = Except.ok acc' := by
  induction fes generalizing acc with
  | nil => exact ⟨acc, rfl⟩
  | cons fe t ih =>
    have hstep : ∃ acc₁, processFood ew acc fe = Except.ok acc₁ := by
      cases hfind : ew.find? (fun e => decide (e.date = fe.date)) with
      | none => exact ⟨acc, by simp [processFood, hfind]⟩
      | some c =>
        by_cases hm : c.moodValue.isSome = true
        · cases hme : fe.meals with
          | none =>
            have hh := h fe (List.mem_cons_self fe t)
            rw [hme] at hh
            simp at hh
          | some s =>
            have hp := hproto fe (List.mem_cons_self fe t)
            rw [hme] at hp
            simp only [Option.getD_some] at hp
            obtain ⟨acc₁, hacc₁⟩ :=
              foldlM_addMealMood_ok (c.moodValue.getD 0) (mealTokens s) acc hp
            refine ⟨acc₁, ?_⟩
            rw [show processFood ew acc fe =
              (mealTokens s).foldlM
                (fun a m => addMealMood a m (c.moodValue.getD 0)) acc by
                simp [processFood, hfind, hm, hme]]
            exact hacc₁
        · exact ⟨acc, by simp [processFood, hfind, hm]⟩
    obtain ⟨acc₁, hacc₁⟩ := hstep
    obtain ⟨acc', hacc'⟩ := ih acc₁ (fun fe hfe => h fe (List.mem_cons_of_mem _ hfe))
      (fun fe hfe => hproto fe (List.mem_cons_of_mem _ hfe))
    exact ⟨acc', by rw [List.foldlM_cons, hacc₁]; exact hacc'⟩

theorem analyzeMealImpact_some (ce : List CombinedEntry) (fes : List FoodEntry) :
    analyzeMealImpact ce (some fes) =
      if (entriesWithBothMeal ce).length < 14 then
        Except.ok { hasEnoughData := false, mealPatterns := [] }
      else
        match fes.foldlM (processFood (entriesWithBothMeal ce)) (⟨[], []⟩ : MealAcc) with
        | .error e => .error e
        | .ok acc =>
          Except.ok (⟨true, ((buildMealPatterns acc).insertionSort mealGe).filter
            (fun m => 3 ≤ m.occurrences)⟩ : MealImpactResult) := rfl

theorem analyzeMealImpact_ok_patterns (ce : List CombinedEntry) (fes : List FoodEntry)
    (r : MealImpactResult) (h : 14 ≤ (entriesWithBothMeal ce).length)
    (hr : analyzeMealImpact ce (some fes) = Except.ok r) :
    ∃ acc : MealAcc, r.mealPatterns =
      ((buildMealPatterns acc).insertionSort mealGe).filter
        (fun m => decide (3 ≤ m.occurrences)) ∧ r.hasEnoughData = true := by
  rw [analyzeMealImpact_some, if_neg (not_lt.mpr h)] at hr
  cases hfold : fes.foldlM (processFood (entriesWithBothMeal ce)) (⟨[], []⟩ : MealAcc) with
  | error e =>
    rw [hfold] at hr
    exact absurd hr (by simp)
  | ok acc =>
    rw [hfold] at hr
    refine ⟨acc, ?_, ?_⟩
    · rw [← Except.ok.inj hr]
    · rw [← Except.ok.inj hr]

/-! ### Spec-modelled reading of the optimal-bucket tie-break -/

/-- Modelled from the spec (section 4.2): "iterate buckets in insertion
order, keep current best unless a strictly greater mean is found". This
walks `sleepGroups` in pure insertion order, without the `Object.entries`
canonical-array-index reordering that the code's `Record<string, number[]>`
actually performs. -/
def specInsertionOptimalSleep (entries : List CombinedEntry) : ℤ :=
  (pickBest (fun a => a.avgMood) ⟨0, 0, 0⟩
    (((sleepGroups entries).filter (fun p => 0 < p.2.length)).map
      (fun p => (⟨jsParseIntNum p.1, mean p.2, p.2.length⟩ : SleepAvg)))).hours

/-! ### Concrete example inputs

The remainder of the file evaluates the model on concrete inputs with
`decide`; the rational primitives are restored to their default
reducibility for that (they are `irreducible` in the library). -/

section ConcreteEvaluation

attribute [local semireducible] Rat.add Rat.mul Rat.inv Rat.sub

/-- Five qualifying days whose mood is constant (4) while sleep and water
vary; sleep buckets 9 and 8 tie on mean mood and bucket 9 is inserted
first. -/
def exEntriesTie : List CombinedEntry :=
  [{ date := "01", moodValue := some 4, sleepHours := some 9, waterCups := some 3 },
   { date := "02", moodValue := some 4, sleepHours := some 9, waterCups := some 4 },
   { date := "03", moodValue := some 4, sleepHours := some 8, waterCups := some 5 },
   { date := "04", moodValue := some 4, sleepHours := some 8, waterCups := some 6 },
   { date := "05", moodValue := some 4, sleepHours := some 8, waterCups := some 7 }]

/-- Five qualifying days with spread in mood, sleep and water. -/
def exEntriesVaried : List CombinedEntry :=
  [{ date := "01", moodValue := some 5, sleepHours := some 4, waterCups := some 2 },
   { date := "02", moodValue := some 4, sleepHours := some 5, waterCups := some 3 },
   { date := "03", moodValue := some 3, sleepHours := some 6, waterCups := some 4 },
   { date := "04", moodValue := some 2, sleepHours := some 7, waterCups := some 5 },
   { date := "05", moodValue := some 1, sleepHours := some 8, waterCups := some 6 }]

/-- Fourteen combined days qualifying for the meal analyzer. -/
def exEntriesMeal14 : List CombinedEntry :=
  [{ date := "01", moodValue := some 3, mealCount := some 1 },
   { date := "02", moodValue := some 3, mealCount := some 1 },
   { date := "03", moodValue := some 3, mealCount := some 1 },
   { date := "04", moodValue := some 3, mealCount := some 1 },
   { date := "05", moodValue := some 3, mealCount := some 1 },
   { date := "06", moodValue := some 3, mealCount := some 1 },
   { date := "07", moodValue := some 3, mealCount := some 1 },
   { date := "08", moodValue := some 3, mealCount := some 1 },
   { date := "09", moodValue := some 3, mealCount := some 1 },
   { date := "10", moodValue := some 3, mealCount := some 1 },
   { date := "11", moodValue := some 3, mealCount := some 1 },
   { date := "12", moodValue := some 3, mealCount := some 1 },
   { date := "13", moodValue := some 3, mealCount := some 1 },
   { date := "14", moodValue := some 3, mealCount := some 1 }]

/-- Three food entries that give the meal "oats" three occurrences. -/
def exFoodOats : List FoodEntry :=
  [⟨"01", some "oats"⟩, ⟨"02", some "oats"⟩, ⟨"03", some "oats"⟩]

/-- Two food entries whose meal names each occur only once. -/
def exFoodSingles : List FoodEntry :=
  [⟨"01", some "toast"⟩, ⟨"02", some "soup"⟩]

/-- A food entry whose single meal segment names the inherited
`Object.prototype` member `constructor`. -/
def exFoodProto : List FoodEntry := [⟨"01", some "constructor"⟩]

/-- Eight mood days, four with gratitude (mood 5) and four without (mood 1). -/
def exEntriesGratitude : List CombinedEntry :=
  [{ date := "01", moodValue := some 5, hasGratitude := some true },
   { date := "02", moodValue := some 5, hasGratitude := some true },
   { date := "03", moodValue := some 5, hasGratitude := some true },
   { date := "04", moodValue := some 5, hasGratitude := some true },
   { date := "05", moodValue := some 1 },
   { date := "06", moodValue := some 1 },
   { date := "07", moodValue := some 1 },
   { date := "08", moodValue := some 1 }]

/-- Two mood entries on the same date, in two orders (the later one wins). -/
def exMoodDupA : List MoodEntry := [⟨"d", "great"⟩, ⟨"d", "awful"⟩]

/-- The same two mood entries as `exMoodDupA`, in the opposite order. -/
def exMoodDupB : List MoodEntry := [⟨"d", "awful"⟩, ⟨"d", "great"⟩]

/-- Two mood entries on distinct dates. -/
def exMoodAB : List MoodEntry := [⟨"b", "good"⟩, ⟨"a", "bad"⟩]

/-- `exMoodAB` reversed. -/
def exMoodBA : List MoodEntry := [⟨"a", "bad"⟩, ⟨"b", "good"⟩]

/-! ### The claims -/

/-- C1: for at least 5 qualifying (moodScore, factorValue) pairs, the
correlation returned by `calculateMoodSleepCorrelation` (and likewise
`calculateMoodWaterCorrelation`) equals population Pearson's r of the
paired series — `covariance / sqrt(variance * variance)` with the
population normalization — even though the code divides un-normalized sums
of squared deviations: the `1/n` factors cancel. -/
theorem c1_correlation_is_population_pearson (ce : List CombinedEntry) :
    (5 ≤ (entriesWithBothSleep ce).length →
      (calculateMoodSleepCorrelation ce).correlation =
        pearsonSpec (sleepMoodVals (entriesWithBothSleep ce))
          (sleepHourVals (entriesWithBothSleep ce))) ∧
    (5 ≤ (entriesWithBothWater ce).length →
      (calculateMoodWaterCorrelation ce).correlation =
        pearsonSpec (waterMoodVals (entriesWithBothWater ce))
          (waterCupVals (entriesWithBothWater ce))) := by
  constructor
  · intro h
    rw [calculateMoodSleepCorrelation_of_ge ce h]
    exact jsCorrelation_eq_pearsonSpec _ _ (by simp [sleepMoodVals, sleepHourVals])
      (by
        simp only [sleepMoodVals, ne_eq, List.map_eq_nil_iff]
        exact List.ne_nil_of_length_pos (lt_of_lt_of_le (by norm_num) h))
  · intro h
    rw [calculateMoodWaterCorrelation_of_ge ce h]
    exact jsCorrelation_eq_pearsonSpec _ _ (by simp [waterMoodVals, waterCupVals])
      (by
        simp only [waterMoodVals, ne_eq, List.map_eq_nil_iff]
        exact List.ne_nil_of_length_pos (lt_of_lt_of_le (by norm_num) h))

/-- Witness for C1 at a concrete five-day input with spread in all series. -/
theorem c1_correlation_is_population_pearson_witness :
    (calculateMoodSleepCorrelation exEntriesVaried).correlation =
      pearsonSpec (sleepMoodVals (entriesWithBothSleep exEntriesVaried))
        (sleepHourVals (entriesWithBothSleep exEntriesVaried)) ∧
    (calculateMoodWaterCorrelation exEntriesVaried).correlation =
      pearsonSpec (waterMoodVals (entriesWithBothWater exEntriesVaried))
        (waterCupVals (entriesWithBothWater exEntriesVaried)) :=
  ⟨(c1_correlation_is_population_pearson exEntriesVaried).1 (by decide),
   (c1_correlation_is_population_pearson exEntriesVaried).2 (by decide)⟩

/-- C2: with at least 5 qualifying pairs, if all qualifying mood scores are
identical or all factor values are identical (zero variance on either
side), the returned correlation is exactly 0: the NaN of `0 / 0` is mapped
to 0 rather than propagated. -/
theorem c2_zero_variance_clamps_to_zero (ce : List CombinedEntry) :
    (5 ≤ (entriesWithBothSleep ce).length →
      ((∀ x ∈ sleepMoodVals (entriesWithBothSleep ce),
          ∀ y ∈ sleepMoodVals (entriesWithBothSleep ce), x = y) ∨
        (∀ x ∈ sleepHourVals (entriesWithBothSleep ce),
          ∀ y ∈ sleepHourVals (entriesWithBothSleep ce), x = y)) →
      (calculateMoodSleepCorrelation ce).correlation = 0) ∧
    (5 ≤ (entriesWithBothWater ce).length →
      ((∀ x ∈ waterMoodVals (entriesWithBothWater ce),
          ∀ y ∈ waterMoodVals (entriesWithBothWater ce), x = y) ∨
        (∀ x ∈ waterCupVals (entriesWithBothWater ce),
          ∀ y ∈ waterCupVals (entriesWithBothWater ce), x = y)) →
      (calculateMoodWaterCorrelation ce).correlation = 0) := by
  constructor
  · intro h hconst
    rw [calculateMoodSleepCorrelation_of_ge ce h]
    rcases hconst with hconst | hconst
    · exact jsCorrelation_zero_of_const_left _ _ (by simp [sleepMoodVals, sleepHourVals]) hconst
    · exact jsCorrelation_zero_of_const_right _ _ (by simp [sleepMoodVals, sleepHourVals]) hconst
  · intro h hconst
    rw [calculateMoodWaterCorrelation_of_ge ce h]
    rcases hconst with hconst | hconst
    · exact jsCorrelation_zero_of_const_left _ _ (by simp [waterMoodVals, waterCupVals]) hconst
    · exact jsCorrelation_zero_of_const_right _ _ (by simp [waterMoodVals, waterCupVals]) hconst

/-- Witness for C2 at a concrete input with constant mood (all 4) and
spread factor values. -/
theorem c2_zero_variance_clamps_to_zero_witness :
    (calculateMoodSleepCorrelation exEntriesTie).correlation = 0 ∧
    (calculateMoodWaterCorrelation exEntriesTie).correlation = 0 :=
  ⟨(c2_zero_variance_clamps_to_zero exEntriesTie).1 (by decide) (Or.inl (by decide)),
   (c2_zero_variance_clamps_to_zero exEntriesTie).2 (by decide) (Or.inl (by decide))⟩

/-- C6: with at least 5 qualifying pairs and nonzero variance in both
series (the un-normalized sums of squared deviations are nonzero, which for
a nonempty series is equivalent), the returned correlation lies in
`[-1, 1]`. -/
theorem c6_correlation_in_unit_interval (ce : List CombinedEntry) :
    (5 ≤ (entriesWithBothSleep ce).length →
      ssDev (sleepMoodVals (entriesWithBothSleep ce)) ≠ 0 →
      ssDev (sleepHourVals (entriesWithBothSleep ce)) ≠ 0 →
      -1 ≤ (calculateMoodSleepCorrelation ce).correlation ∧
        (calculateMoodSleepCorrelation ce).correlation ≤ 1) ∧
    (5 ≤ (entriesWithBothWater ce).length →
      ssDev (waterMoodVals (entriesWithBothWater ce)) ≠ 0 →
      ssDev (waterCupVals (entriesWithBothWater ce)) ≠ 0 →
      -1 ≤ (calculateMoodWaterCorrelation ce).correlation ∧
        (calculateMoodWaterCorrelation ce).correlation ≤ 1) := by
  constructor
  · intro h hx hy
    rw [calculateMoodSleepCorrelation_of_ge ce h]
    exact jsCorrelation_bounds _ _ (by simp [sleepMoodVals, sleepHourVals]) hx hy
  · intro h hx hy
    rw [calculateMoodWaterCorrelation_of_ge ce h]
    exact jsCorrelation_bounds _ _ (by simp [waterMoodVals, waterCupVals]) hx hy

/-- Witness for C6 at a concrete five-day input with spread in all series. -/
theorem c6_correlation_in_unit_interval_witness :
    (-1 ≤ (calculateMoodSleepCorrelation exEntriesVaried).correlation ∧
      (calculateMoodSleepCorrelation exEntriesVaried).correlation ≤ 1) ∧
    (-1 ≤ (calculateMoodWaterCorrelation exEntriesVaried).correlation ∧
      (calculateMoodWaterCorrelation exEntriesVaried).correlation ≤ 1) :=
  ⟨(c6_correlation_in_unit_interval exEntriesVaried).1 (by decide) (by decide) (by decide),
   (c6_correlation_in_unit_interval exEntriesVaried).2 (by decide) (by decide) (by decide)⟩

/-- C7: with fewer than 5 qualifying records, both correlation functions
return exactly `hasEnoughData: false, correlation: 0`, optimal value `0`
and best record `null` (and no `dataPoints`/`averages` properties); the
floor of 5 is the literal in the code. -/
theorem c7_minimum_data_floor (ce : List CombinedEntry) :
    ((entriesWithBothSleep ce).length < 5 →
      calculateMoodSleepCorrelation ce = ⟨false, 0, 0, none, none, none⟩) ∧
    ((entriesWithBothWater ce).length < 5 →
      calculateMoodWaterCorrelation ce = ⟨false, 0, 0, none, none, none⟩) :=
  ⟨fun h => calculateMoodSleepCorrelation_of_lt ce h,
   fun h => calculateMoodWaterCorrelation_of_lt ce h⟩

/-- Witness for C7 at the empty record list. -/
theorem c7_minimum_data_floor_witness :
    calculateMoodSleepCorrelation [] = ⟨false, 0, 0, none, none, none⟩ ∧
    calculateMoodWaterCorrelation [] = ⟨false, 0, 0, none, none, none⟩ :=
  ⟨(c7_minimum_data_floor []).1 (by decide), (c7_minimum_data_floor []).2 (by decide)⟩

/-- C8: `calculateGratitudeImpact` returns the zeroed
`hasEnoughData: false` record exactly when fewer than 7 records have a mood
score, or no mood-scored record has gratitude (`gratitudeDays` empty), or
all of them do (`nonGratitudeDays` empty); otherwise `hasEnoughData: true`
with `impact` the mean mood of gratitude days minus the mean mood of
non-gratitude days. -/
theorem c8_gratitude_floor_and_impact (ce : List CombinedEntry) :
    (((entriesWithMood ce).length < 7 ∨ (gratitudeDays ce).length = 0 ∨
        (nonGratitudeDays ce).length = 0) ↔
      calculateGratitudeImpact ce = ⟨false, 0, 0, 0, none, none, none⟩) ∧
    (¬ ((entriesWithMood ce).length < 7 ∨ (gratitudeDays ce).length = 0 ∨
        (nonGratitudeDays ce).length = 0) →
      (calculateGratitudeImpact ce).hasEnoughData = true ∧
      (calculateGratitudeImpact ce).impact =
        mean ((gratitudeDays ce).map (fun e => e.moodValue.getD 0)) -
          mean ((nonGratitudeDays ce).map (fun e => e.moodValue.getD 0))) := by
  constructor
  · constructor
    · exact calculateGratitudeImpact_of_insufficient ce
    · intro heq
      by_contra hcond
      rw [calculateGratitudeImpact_of_sufficient ce hcond] at heq
      simp at heq
  · intro hcond
    rw [calculateGratitudeImpact_of_sufficient ce hcond]
    exact ⟨rfl, rfl⟩

/-- Witness for C8 at eight mood days, four with gratitude and four
without. -/
theorem c8_gratitude_floor_and_impact_witness :
    (calculateGratitudeImpact exEntriesGratitude).hasEnoughData = true ∧
    (calculateGratitudeImpact exEntriesGratitude).impact =
      mean ((gratitudeDays exEntriesGratitude).map (fun e => e.moodValue.getD 0)) -
        mean ((nonGratitudeDays exEntriesGratitude).map (fun e => e.moodValue.getD 0)) :=
  (c8_gratitude_floor_and_impact exEntriesGratitude).2 (by decide)

/-- C9: when `analyzeMealImpact` succeeds on at least 14 qualifying
records, every reported meal pattern has at least 3 accumulated
occurrences (meals seen fewer than 3 times are filtered out, whatever
their average mood), and the reported patterns are sorted descending by
average mood. -/
theorem c9_meal_floor_and_ranking (ce : List CombinedEntry) (fes : List FoodEntry)
    (r : MealImpactResult) (h : 14 ≤ (entriesWithBothMeal ce).length)
    (hr : analyzeMealImpact ce (some fes) = Except.ok r) :
    (∀ p ∈ r.mealPatterns, 3 ≤ p.occurrences) ∧ List.Pairwise mealGe r.mealPatterns := by
  obtain ⟨acc, hpat, -⟩ := analyzeMealImpact_ok_patterns ce fes r h hr
  constructor
  · intro p hp
    rw [hpat] at hp
    simpa using List.of_mem_filter hp
  · rw [hpat]
    exact List.Pairwise.filter _ (List.sorted_insertionSort mealGe _)

/-- Witness for C9 at fourteen qualifying days with "oats" eaten three
times. -/
theorem c9_meal_floor_and_ranking_witness :
    (∀ p ∈ (⟨true, [⟨"oats", 3, 3⟩]⟩ : MealImpactResult).mealPatterns, 3 ≤ p.occurrences) ∧
      List.Pairwise mealGe (⟨true, [⟨"oats", 3, 3⟩]⟩ : MealImpactResult).mealPatterns :=
  c9_meal_floor_and_ranking exEntriesMeal14 exFoodOats ⟨true, [⟨"oats", 3, 3⟩]⟩
    (by decide) (by decide)

/-- C10: there is an input with at least 14 qualifying combined records on
which `analyzeMealImpact` returns `hasEnoughData: true` together with an
empty `mealPatterns` list — here every distinct meal name occurs only once
— so `hasEnoughData: true` does not guarantee any reported pattern. -/
theorem c10_enough_data_with_empty_patterns :
    14 ≤ (entriesWithBothMeal exEntriesMeal14).length ∧
    analyzeMealImpact exEntriesMeal14 (some exFoodSingles) =
      Except.ok ⟨true, []⟩ := by
  decide

/-- C3 counterexample: the two inputs are permutations of each other (two
mood entries sharing one date, swapped), yet the combined records differ —
the later entry's fields win, so the output multiset is not invariant under
permuting a list that repeats a date. -/
theorem c3_permutation_counterexample :
    exMoodDupA.Perm exMoodDupB ∧
    combineDailyEntries (some exMoodDupA) (some []) (some []) (some []) (some []) ≠
      combineDailyEntries (some exMoodDupB) (some []) (some []) (some []) (some []) := by
  decide

/-- C3 amended: provided each of the five input lists contains at most one
entry per date (the repository's stated external invariant), permuting each
list's internal order leaves the combined output unchanged (in particular
the same multiset); and for arbitrary inputs the output is always strictly
ascending by date string. -/
theorem c3_combiner_determinism_amended :
    (∀ (mo₁ mo₂ : List MoodEntry) (sl₁ sl₂ : List SleepEntry) (wa₁ wa₂ : List WaterEntry)
      (fo₁ fo₂ : List FoodEntry) (gr₁ gr₂ : List GratitudeEntry),
      mo₁.Perm mo₂ → sl₁.Perm sl₂ → wa₁.Perm wa₂ → fo₁.Perm fo₂ → gr₁.Perm gr₂ →
      (mo₁.map (fun e => e.date)).Nodup → (sl₁.map (fun e => e.date)).Nodup →
      (wa₁.map (fun e => e.date)).Nodup → (fo₁.map (fun e => e.date)).Nodup →
      (gr₁.map (fun e => e.date)).Nodup →
      combineDailyEntries (some mo₁) (some sl₁) (some wa₁) (some fo₁) (some gr₁) =
        combineDailyEntries (some mo₂) (some sl₂) (some wa₂) (some fo₂) (some gr₂)) ∧
    (∀ (mo : Option (List MoodEntry)) (sl : Option (List SleepEntry))
      (wa : Option (List WaterEntry)) (fo : Option (List FoodEntry))
      (gr : Option (List GratitudeEntry)),
      List.Pairwise dateLt (combineDailyEntries mo sl wa fo gr)) := by
  constructor
  · intro mo₁ mo₂ sl₁ sl₂ wa₁ wa₂ fo₁ fo₂ gr₁ gr₂ hmo hsl hwa hfo hgr hmod hsld hwad hfod hgrd
    unfold combineDailyEntries
    exact sortedOutput_eq_of_perm _ _
      (combineMap_perm_congr mo₁ mo₂ sl₁ sl₂ wa₁ wa₂ fo₁ fo₂ gr₁ gr₂ hmo hsl hwa hfo hgr
        hmod hsld hwad hfod hgrd)
      (nodup_keysE_combineMap _ _ _ _ _) (datesOk_combineMap _ _ _ _ _)
  · intro mo sl wa fo gr
    unfold combineDailyEntries
    exact sortedOutput_pairwise _ (nodup_keysE_combineMap _ _ _ _ _)
      (datesOk_combineMap _ _ _ _ _)

/-- Witness for the amended C3: two mood entries on distinct dates, in both
orders, combine to the same strictly date-sorted output. -/
theorem c3_combiner_determinism_amended_witness :
    combineDailyEntries (some exMoodAB) (some []) (some []) (some []) (some []) =
      combineDailyEntries (some exMoodBA) (some []) (some []) (some []) (some []) ∧
    List.Pairwise dateLt
      (combineDailyEntries (some exMoodAB) (some []) (some []) (some []) (some [])) :=
  ⟨c3_combiner_determinism_amended.1 exMoodAB exMoodBA [] [] [] [] [] [] [] []
      (by decide) (by decide) (by decide) (by decide) (by decide) (by decide) (by decide)
      (by decide) (by decide) (by decide),
   c3_combiner_determinism_amended.2 (some exMoodAB) (some []) (some []) (some []) (some [])⟩

/-- C4 counterexample: with 14 qualifying combined records and a non-array
`foodEntries`, `analyzeMealImpact` throws a `TypeError`
(`foodEntries.forEach` has no `Array.isArray` guard), so not every
operation of the core tolerates malformed input lists. -/
theorem c4_meal_analyzer_throws_counterexample :
    14 ≤ (entriesWithBothMeal exEntriesMeal14).length ∧
    analyzeMealImpact exEntriesMeal14 none = Except.error JsError.typeError := by
  decide

/-- C4 amended: `combineDailyEntries` never throws and treats a non-array
in place of any combination of its five lists as empty; `analyzeMealImpact`
returns a result whenever `foodEntries` is an array whose entries carry a
`meals` string none of whose comma-separated segments, trimmed and
lower-cased, names an inherited `Object.prototype` member (the correlation
and gratitude functions, being total on record lists, never throw). The
original claim fails for `analyzeMealImpact` on a non-array `foodEntries`
reached past the 14-record floor, on a matched entry with a missing
`meals` field, and — as the last conjunct shows at a concrete input — on a
matched meal segment such as `"constructor"`, whose truthy inherited value
skips the array init and makes the `push` call throw. -/
theorem c4_totality_amended :
    (∀ (mo : Option (List MoodEntry)) (sl : Option (List SleepEntry))
      (wa : Option (List WaterEntry)) (fo : Option (List FoodEntry))
      (gr : Option (List GratitudeEntry)),
      combineDailyEntries mo sl wa fo gr =
        combineDailyEntries (some (mo.getD [])) (some (sl.getD [])) (some (wa.getD []))
          (some (fo.getD [])) (some (gr.getD []))) ∧
    (∀ (ce : List CombinedEntry) (fes : List FoodEntry),
      (∀ fe ∈ fes, fe.meals.isSome = true) →
      (∀ fe ∈ fes, ∀ m ∈ mealTokens (fe.meals.getD ""), isProtoKey m = false) →
      ∃ r, analyzeMealImpact ce (some fes) = Except.ok r) ∧
    analyzeMealImpact exEntriesMeal14 (some exFoodProto) =
      Except.error JsError.typeError := by
  refine ⟨?_, ?_, by decide⟩
  · intro mo sl wa fo gr
    cases mo <;> cases sl <;> cases wa <;> cases fo <;> cases gr <;> rfl
  · intro ce fes hmeals hproto
    by_cases h : (entriesWithBothMeal ce).length < 14
    · exact ⟨⟨false, []⟩, by rw [analyzeMealImpact_some, if_pos h]⟩
    · obtain ⟨acc, hacc⟩ :=
        foldlM_processFood_ok (entriesWithBothMeal ce) fes ⟨[], []⟩ hmeals hproto
      exact ⟨_, by rw [analyzeMealImpact_some, if_neg h, hacc]⟩

/-- Witness for the amended C4: all-non-array inputs combine like all-empty
inputs, and the meal analyzer succeeds on an array of well-formed food
entries whose meal names are ordinary strings. -/
theorem c4_totality_amended_witness :
    combineDailyEntries none none none none none =
      combineDailyEntries (some []) (some []) (some []) (some []) (some []) ∧
    ∃ r, analyzeMealImpact exEntriesMeal14 (some exFoodOats) = Except.ok r :=
  ⟨c4_totality_amended.1 none none none none none,
   c4_totality_amended.2.1 exEntriesMeal14 exFoodOats (by decide) (by decide)⟩

/-- C5 counterexample: five qualifying days put bucket 9 first in insertion
order, buckets 9 and 8 tie on mean mood (both 4), yet the code returns
optimal sleep 8 — `Object.entries` enumerates the canonical integer keys
in ascending numeric order, not insertion order, so the first-seen-wins
reduce favours the smallest tied bucket, not the first inserted one. -/
theorem c5_tie_break_counterexample :
    sleepGroups (entriesWithBothSleep exEntriesTie) = [(9, [4, 4]), (8, [4, 4, 4])] ∧
    sleepMoodAverages (entriesWithBothSleep exEntriesTie) = [⟨8, 4, 3⟩, ⟨9, 4, 2⟩] ∧
    (calculateMoodSleepCorrelation exEntriesTie).optimalSleepHours = 8 ∧
    specInsertionOptimalSleep (entriesWithBothSleep exEntriesTie) = 9 := by
  refine ⟨by decide, by decide, ?_, by decide⟩
  rw [calculateMoodSleepCorrelation_of_ge exEntriesTie (by decide)]
  decide

/-- C5 amended: the optimal factor value is a bucket of maximal mean mood,
and on ties the bucket that comes first in the code's `Object.entries`
enumeration order (ascending numeric factor for canonical non-negative
integer buckets, then insertion order) retains priority: in the
enumeration-ordered averages list, everything before the chosen bucket has
strictly smaller mean and everything after has mean at most the chosen
one's. -/
theorem c5_optimal_bucket_amended (ce : List CombinedEntry) :
    (5 ≤ (entriesWithBothSleep ce).length →
      ∃ b l₁ l₂, sleepMoodAverages (entriesWithBothSleep ce) = l₁ ++ b :: l₂ ∧
        (calculateMoodSleepCorrelation ce).optimalSleepHours = b.hours ∧
        (∀ a ∈ l₁, a.avgMood < b.avgMood) ∧ (∀ a ∈ l₂, a.avgMood ≤ b.avgMood)) ∧
    (5 ≤ (entriesWithBothWater ce).length →
      ∃ b l₁ l₂, waterMoodAverages (entriesWithBothWater ce) = l₁ ++ b :: l₂ ∧
        (calculateMoodWaterCorrelation ce).optimalWaterCups = b.cups ∧
        (∀ a ∈ l₁, a.avgMood < b.avgMood) ∧ (∀ a ∈ l₂, a.avgMood ≤ b.avgMood)) := by
  constructor
  · intro h
    have hne : entriesWithBothSleep ce ≠ [] :=
      List.ne_nil_of_length_pos (lt_of_lt_of_le (by norm_num) h)
    obtain ⟨l₁, l₂, hdec, hbef, haft⟩ :=
      pickBest_spec (fun a : SleepAvg => a.avgMood) ⟨0, 0, 0⟩
        (sleepMoodAverages (entriesWithBothSleep ce)) (sleepMoodAverages_ne_nil _ hne)
    refine ⟨pickBest (fun a => a.avgMood) ⟨0, 0, 0⟩
      (sleepMoodAverages (entriesWithBothSleep ce)), l₁, l₂, hdec, ?_, hbef, haft⟩
    rw [calculateMoodSleepCorrelation_of_ge ce h]
    rfl
  · intro h
    have hne : entriesWithBothWater ce ≠ [] :=
      List.ne_nil_of_length_pos (lt_of_lt_of_le (by norm_num) h)
    obtain ⟨l₁, l₂, hdec, hbef, haft⟩ :=
      pickBest_spec (fun a : WaterAvg => a.avgMood) ⟨0, 0, 0⟩
        (waterMoodAverages (entriesWithBothWater ce)) (waterMoodAverages_ne_nil _ hne)
    refine ⟨pickBest (fun a => a.avgMood) ⟨0, 0, 0⟩
      (waterMoodAverages (entriesWithBothWater ce)), l₁, l₂, hdec, ?_, hbef, haft⟩
    rw [calculateMoodWaterCorrelation_of_ge ce h]
    rfl

/-- Witness for the amended C5 at the tie input. -/
theorem c5_optimal_bucket_amended_witness :
    (∃ b l₁ l₂, sleepMoodAverages (entriesWithBothSleep exEntriesTie) = l₁ ++ b :: l₂ ∧
      (calculateMoodSleepCorrelation exEntriesTie).optimalSleepHours = b.hours ∧
      (∀ a ∈ l₁, a.avgMood < b.avgMood) ∧ (∀ a ∈ l₂, a.avgMood ≤ b.avgMood)) ∧
    (∃ b l₁ l₂, waterMoodAverages (entriesWithBothWater exEntriesTie) = l₁ ++ b :: l₂ ∧
      (calculateMoodWaterCorrelation exEntriesTie).optimalWaterCups = b.cups ∧
      (∀ a ∈ l₁, a.avgMood < b.avgMood) ∧ (∀ a ∈ l₂, a.avgMood ≤ b.avgMood)) :=
  ⟨(c5_optimal_bucket_amended exEntriesTie).1 (by decide),
   (c5_optimal_bucket_amended exEntriesTie).2 (by decide)⟩

end ConcreteEvaluation

end MindSpace
